import Mathlib

/-!
# UART DMA transport: direct-locking guard (mode A) and serialized worker (mode B)

Shallow embedding of `src/zephyr/UART/uart_boilerplate.c` (mode A) and
`src/zephyr/UART/uart_boilerplate_queue.c` (mode B).

* Bytes are natural numbers, buffers are lists of bytes.
* Every function that blocks on a kernel primitive takes the primitive's result from an
  explicit record of environment answers, so one call is a total function of the state
  on entry and of those answers.
* The interleavings of several tasks, the worker and the adapter's completion events are
  labelled transition systems whose control points carry the source line numbers.
-/

namespace Uart

/-! ## Shared constants and primitives -/

/-- Value of `EINVAL` in Zephyr's errno table. -/
def EINVAL : Int := 22

/-- Value of `EBUSY` in Zephyr's errno table. -/
def EBUSY : Int := 16

/-- Value of `EAGAIN` in Zephyr's errno table: the result of a kernel wait that timed out. -/
def EAGAIN : Int := 11

/-- Size of every byte array of both sources: `tx_buffer[64]`, `rx_buffer[64]`,
`rx_double_buffer[64]` and `uart_msg_t.data[64]`. -/
def BUF_SIZE : Nat := 64

/-- The C library `memcpy(dst, src, n)`: the first `n` bytes of `dst` are replaced by the
first `n` bytes of `src`, the rest of `dst` is kept. -/
def memcpy (dst src : List Nat) (n : Nat) : List Nat :=
  src.take n ++ dst.drop n

/-- Kernel `k_sem_give` on a semaphore of limit 1 (`k_sem_init(&sem, 0, 1)`): the count is
incremented and saturates at the limit. -/
def k_sem_give (count : Nat) : Nat :=
  if count < 1 then count + 1 else count

/-- Kernel `k_mutex_unlock` by task `i` on a mutex held by `m`: only the owner releases. -/
def k_mutex_unlock (m : Option Nat) (i : Nat) : Option Nat :=
  if m = some i then none else m

/-! ## Receive path: the adapter event handler (same text in both sources) -/

/-- The two receive buffers of the sources. -/
inductive RxBuf where
  | rx_buffer
  | rx_double_buffer
  deriving DecidableEq, Repr

/-- Values of `evt->type` the handler switches on; `other` is the `default:` branch. -/
inductive EvtType where
  | UART_TX_DONE
  | UART_TX_ABORTED
  | UART_RX_RDY
  | UART_RX_BUF_REQUEST
  | UART_RX_BUF_RELEASED
  | UART_RX_DISABLED
  | UART_RX_STOPPED (reason : Nat)
  | other (type : Nat)
  deriving DecidableEq, Repr

/-- Whether an event ends an outstanding transmit. -/
def EvtType.is_tx_completion : EvtType → Bool
  | .UART_TX_DONE => true
  | .UART_TX_ABORTED => true
  | _ => false

/-- Calls the handler makes into the transport adapter. -/
inductive RxCall where
  | uart_rx_buf_rsp (buf : RxBuf) (len : Nat)
  | uart_rx_enable (buf : RxBuf) (len : Nat)
  deriving DecidableEq, Repr

/-- Buffer named by an adapter call. -/
def RxCall.buf : RxCall → RxBuf
  | .uart_rx_buf_rsp b _ => b
  | .uart_rx_enable b _ => b

/-- Globals the handler reads and writes: the buffer selector and the two semaphores it
gives (`uart_tx_sem`/`uart_rx_sem` in mode A, `uart_tx_complete_sem`/`uart_rx_ready_sem`
in mode B). -/
structure CbState where
  use_rx_buffer_1 : Bool
  tx_sem : Nat
  rx_sem : Nat
  deriving DecidableEq, Repr

/-- State after `main` has initialised the semaphores to 0 and before any event:
`use_rx_buffer_1 = true` is the static initialiser. -/
def CbState.init : CbState :=
  { use_rx_buffer_1 := true, tx_sem := 0, rx_sem := 0 }

/-- The call `main` (mode B, line 359) or `uart_start_dma_rx` (mode A, line 169) makes to arm
continuous receive. -/
def initial_arm : RxCall := .uart_rx_enable .rx_buffer BUF_SIZE

/-- The handler `uart_callback` of `uart_boilerplate.c` (lines 45-103): the new globals and
the adapter calls made, in order. -/
def ModeA.uart_callback (s : CbState) : EvtType → CbState × List RxCall
  | .UART_TX_DONE => ({ s with tx_sem := k_sem_give s.tx_sem }, [])
  | .UART_TX_ABORTED => ({ s with tx_sem := k_sem_give s.tx_sem }, [])
  | .UART_RX_RDY => ({ s with rx_sem := k_sem_give s.rx_sem }, [])
  | .UART_RX_BUF_REQUEST =>
      if s.use_rx_buffer_1 then
        ({ s with use_rx_buffer_1 := false }, [.uart_rx_buf_rsp .rx_double_buffer BUF_SIZE])
      else
        ({ s with use_rx_buffer_1 := true }, [.uart_rx_buf_rsp .rx_buffer BUF_SIZE])
  | .UART_RX_BUF_RELEASED => (s, [])
  | .UART_RX_DISABLED => (s, [])
  | .UART_RX_STOPPED _ => (s, [.uart_rx_enable .rx_buffer BUF_SIZE])
  | .other _ => (s, [])

/-- The handler `uart_callback` of `uart_boilerplate_queue.c` (lines 54-111). -/
def ModeB.uart_callback (s : CbState) : EvtType → CbState × List RxCall
  | .UART_TX_DONE => ({ s with tx_sem := k_sem_give s.tx_sem }, [])
  | .UART_TX_ABORTED => ({ s with tx_sem := k_sem_give s.tx_sem }, [])
  | .UART_RX_RDY => ({ s with rx_sem := k_sem_give s.rx_sem }, [])
  | .UART_RX_BUF_REQUEST =>
      if s.use_rx_buffer_1 then
        ({ s with use_rx_buffer_1 := false }, [.uart_rx_buf_rsp .rx_double_buffer BUF_SIZE])
      else
        ({ s with use_rx_buffer_1 := true }, [.uart_rx_buf_rsp .rx_buffer BUF_SIZE])
  | .UART_RX_BUF_RELEASED => (s, [])
  | .UART_RX_DISABLED => (s, [])
  | .UART_RX_STOPPED _ => (s, [.uart_rx_enable .rx_buffer BUF_SIZE])
  | .other _ => (s, [])

/-- Runs a handler over a sequence of events; the result lists, per event, the adapter calls
the handler made. -/
def run_events (cb : CbState → EvtType → CbState × List RxCall) :
    CbState → List EvtType → CbState × List (List RxCall)
  | s, [] => (s, [])
  | s, e :: es =>
      let r := cb s e
      let rest := run_events cb r.1 es
      (rest.1, r.2 :: rest.2)

/-- Adapter calls of a whole run, flattened, preceded by the initial arm. -/
def handed (cb : CbState → EvtType → CbState × List RxCall) (es : List EvtType) : List RxCall :=
  initial_arm :: (run_events cb CbState.init es).2.flatten

/-- Whether an adapter call is a response to a buffer request. -/
def RxCall.is_rsp : RxCall → Bool
  | .uart_rx_buf_rsp _ _ => true
  | .uart_rx_enable _ _ => false

/-- A buffer response `b` that follows the adapter call `a` hands over the idle buffer:
not the one `a` gave to the adapter. -/
def hands_idle (a b : RxCall) : Prop :=
  b.is_rsp = true → a.buf ≠ b.buf

instance (a b : RxCall) : Decidable (hands_idle a b) :=
  inferInstanceAs (Decidable (b.is_rsp = true → a.buf ≠ b.buf))

/-- The response to the `k`-th buffer request of an uninterrupted run, counted from 1:
the secondary buffer for odd `k`, the primary one for even `k`, always 64 bytes. -/
def alternating_rsp (k : Nat) : List RxCall :=
  [.uart_rx_buf_rsp (if k % 2 = 1 then .rx_double_buffer else .rx_buffer) 64]

/-! ## Mode A: one call of `uart_send_dma_protected` -/

namespace ModeA

/-- Globals one call of `uart_send_dma_protected` reads and writes, and the number of times
the calling task holds `uart_resource_mutex` (a Zephyr mutex is re-entrant). -/
structure State where
  tx_buffer : List Nat
  uart_tx_busy : Bool
  lock_count : Nat
  deriving DecidableEq, Repr

/-- Answers of the blocking calls of one `uart_send_dma_protected` call. -/
structure Env where
  /-- Result of `k_mutex_lock(&uart_resource_mutex, K_MSEC(1000))`, line 116. -/
  lock_ret : Int
  /-- Result of `uart_tx`, line 134. -/
  tx_ret : Int
  /-- Result of `k_sem_take(&uart_tx_sem, K_MSEC(5000))`, line 146. -/
  sem_ret : Int
  deriving DecidableEq, Repr

/-- Kernel and adapter calls one call makes. -/
inductive Act where
  | k_mutex_lock
  | k_mutex_unlock
  | uart_tx (buf : List Nat) (len : Nat)
  | k_sem_take
  deriving DecidableEq, Repr

/-- Arguments of a `uart_tx` call, nothing for the other calls. -/
def Act.tx_args : Act → Option (List Nat × Nat)
  | .uart_tx buf len => some (buf, len)
  | _ => none

/-- Return value, globals on return and calls made, in order. -/
structure Outcome where
  ret : Int
  st : State
  acts : List Act
  deriving DecidableEq, Repr

/-- The `uart_tx` calls of an outcome, in order. -/
def Outcome.tx_calls (o : Outcome) : List (List Nat × Nat) :=
  o.acts.filterMap Act.tx_args

/-- The function `uart_send_dma_protected` (lines 106-159). -/
def uart_send_dma_protected (s : State) (data : List Nat) (len : Nat) (e : Env) : Outcome :=
  if len > BUF_SIZE then                                           -- line 110
    { ret := -EINVAL, st := s, acts := [] }
  else if e.lock_ret ≠ 0 then                                      -- lines 116-120
    { ret := e.lock_ret, st := s, acts := [.k_mutex_lock] }
  else
    let s1 := { s with lock_count := s.lock_count + 1 }
    if s1.uart_tx_busy then                                        -- lines 123-126
      { ret := -EBUSY
        st := { s1 with lock_count := s1.lock_count - 1 }
        acts := [.k_mutex_lock, .k_mutex_unlock] }
    else
      let s2 := { s1 with uart_tx_busy := true }                   -- line 129
      let s3 := { s2 with tx_buffer := memcpy s2.tx_buffer data len }  -- line 130
      let tx := Act.uart_tx s3.tx_buffer len                       -- line 134
      if e.tx_ret ≠ 0 then                                         -- lines 135-140
        { ret := e.tx_ret
          st := { s3 with uart_tx_busy := false, lock_count := s3.lock_count - 1 }
          acts := [.k_mutex_lock, tx, .k_mutex_unlock] }
      else
        let s4 := { s3 with lock_count := s3.lock_count - 1 }      -- line 143
        if e.sem_ret ≠ 0 then                                      -- lines 146-150
          { ret := e.sem_ret
            st := s4
            acts := [.k_mutex_lock, tx, .k_mutex_unlock, .k_sem_take] }
        else                                                       -- lines 153-158
          { ret := 0
            st := { s4 with uart_tx_busy := false }
            acts := [.k_mutex_lock, tx, .k_mutex_unlock, .k_sem_take,
                     .k_mutex_lock, .k_mutex_unlock] }

end ModeA

/-! ## Mode B: one call of `uart_send_queued` -/

namespace ModeB

/-- The descriptor `uart_msg_t` (lines 11-16). `completion_sem` is `none` for `NULL` and
otherwise names the call whose stack frame holds the semaphore. -/
structure Msg where
  data : List Nat
  len : Nat
  completion_sem : Option Nat
  sender_id : Nat
  deriving DecidableEq, Repr

/-- Capacity of `uart_tx_queue`: `K_MSGQ_DEFINE(uart_tx_queue, sizeof(uart_msg_t), 10, 4)`. -/
def MSGQ_MAX : Nat := 10

/-- Kernel `k_msgq_put` with a non-zero timeout. With room the descriptor is appended at
once. On a full queue the caller waits: when `drained`, the worker pops the head within the
timeout and the descriptor is appended; otherwise the wait ends with `-EAGAIN` and the queue
is as it was. -/
def k_msgq_put (q : List Msg) (m : Msg) (drained : Bool) : Int × List Msg :=
  if q.length < MSGQ_MAX then (0, q ++ [m])
  else if drained then (0, q.drop 1 ++ [m])
  else (-EAGAIN, q)

/-- Globals one call of `uart_send_queued` reads and writes, and the number of times the
calling task holds `uart_queue_mutex`. -/
structure State where
  uart_tx_queue : List Msg
  lock_count : Nat
  queue_contentions : Nat
  deriving DecidableEq, Repr

/-- Answers of the environment to one `uart_send_queued` call. -/
structure Env where
  /-- Bytes found in the uninitialised local `msg.data`. -/
  stack : List Nat
  /-- Result of `k_mutex_lock(&uart_queue_mutex, K_MSEC(2000))`, line 186. -/
  lock_ret : Int
  /-- Whether the worker pops a descriptor while the caller waits in `k_msgq_put`. -/
  drained : Bool
  /-- Result of `k_sem_take(&completion_sem, K_MSEC(10000))`, line 209. -/
  sem_ret : Int
  deriving DecidableEq, Repr

/-- Kernel calls one call makes. -/
inductive Act where
  | k_sem_init
  | k_mutex_lock
  | k_msgq_put
  | k_mutex_unlock
  | k_sem_take
  deriving DecidableEq, Repr

/-- Return value, globals on return and kernel calls made, in order. -/
structure Outcome where
  ret : Int
  st : State
  acts : List Act
  deriving DecidableEq, Repr

/-- The descriptor lines 169-179 build in the local `msg` of call `self`. -/
def build_msg (self : Nat) (stack data : List Nat) (len sender_id : Nat)
    ( synchronous : Bool) : Msg :=
  { data := memcpy stack data len
    len := len
    sender_id := sender_id
    completion_sem := if synchronous then some self else none }

/-- The function `uart_send_queued` (lines 159-218), called from stack frame `self`. -/
def uart_send_queued (s : State) (self : Nat) (data : List Nat) (len sender_id : Nat)
    ( synchronous : Bool) (e : Env) : Outcome :=
  if len ≥ BUF_SIZE then                                           -- line 165
    { ret := -EINVAL, st := s, acts := [] }
  else
    let msg := build_msg self e.stack data len sender_id synchronous   -- lines 170-179
    let pre : List Act := if synchronous then [.k_sem_init] else []
    if e.lock_ret ≠ 0 then                                         -- lines 186-191
      { ret := e.lock_ret
        st := { s with queue_contentions := (s.queue_contentions + 1) % 2 ^ 32 }
        acts := pre ++ [.k_mutex_lock] }
    else
      let s1 := { s with lock_count := s.lock_count + 1 }
      let r := k_msgq_put s1.uart_tx_queue msg e.drained           -- line 196
      if r.1 ≠ 0 then                                              -- lines 197-201
        { ret := r.1
          st := { s1 with lock_count := s1.lock_count - 1 }
          acts := pre ++ [.k_mutex_lock, .k_msgq_put, .k_mutex_unlock] }
      else
        let s2 := { s1 with uart_tx_queue := r.2, lock_count := s1.lock_count - 1 }  -- line 204
        if synchronous then                                        -- lines 207-215
          if e.sem_ret ≠ 0 then
            { ret := e.sem_ret
              st := s2
              acts := pre ++ [.k_mutex_lock, .k_msgq_put, .k_mutex_unlock, .k_sem_take] }
          else
            { ret := 0
              st := s2
              acts := pre ++ [.k_mutex_lock, .k_msgq_put, .k_mutex_unlock, .k_sem_take] }
        else
          { ret := 0
            st := s2
            acts := pre ++ [.k_mutex_lock, .k_msgq_put, .k_mutex_unlock] }

/-! ### Mode B as a transition system: senders, the worker and the adapter -/

/-- Arguments of one call of `uart_send_queued`, with the bytes found in its uninitialised
local `msg.data`. Calls are numbered; the number also names the call's stack frame. -/
structure Call where
  data : List Nat
  len : Nat
  sender_id : Nat
  synchronous : Bool
  stack : List Nat
  deriving DecidableEq, Repr

/-- The local `msg` of call `i` once lines 169-179 have run. -/
def Call.msg (c : Call) (i : Nat) : Msg :=
  build_msg i c.stack c.data c.len c.sender_id c.synchronous

/-- Control points of a call of `uart_send_queued`. -/
inductive SPc where
  /-- Line 165, before the length check. -/
  | entry
  /-- Line 186, in `k_mutex_lock`. -/
  | lock
  /-- Line 196, in `k_msgq_put`, holding the mutex. -/
  | put
  /-- Line 199, after a failed put, before the unlock. -/
  | put_failed (ret : Int)
  /-- Line 204, after a successful put, before the unlock. -/
  | unlock
  /-- Line 209, in `k_sem_take` on the private semaphore. -/
  | wait
  /-- Returned `ret` to the call site. -/
  | done (ret : Int)
  deriving DecidableEq, Repr

/-- Control points of `uart_worker_thread`, with its local `msg`. -/
inductive WPc where
  /-- Line 123, in `k_msgq_get`; with `K_FOREVER` the call returns only with a descriptor, so
  the `ret != 0` branch of lines 124-127 is never taken. -/
  | get
  /-- Line 133, about to call `uart_tx`. -/
  | submit (m : Msg)
  /-- Line 137, after a rejected `uart_tx`. -/
  | tx_failed (m : Msg)
  /-- Line 144, in `k_sem_take` on `uart_tx_complete_sem`. -/
  | wait (m : Msg)
  /-- Line 152, after the wait. -/
  | signal (m : Msg)
  deriving DecidableEq, Repr

/-- One `uart_tx` call as the adapter sees it: buffer, length and the result it answered. -/
structure TxCall where
  buf : List Nat
  len : Nat
  ret : Int
  deriving DecidableEq, Repr

/-- Whole-system state of mode B. `outstanding` is the adapter's number of accepted
transmits whose completion event it has not raised yet; `pushed` and `tx_calls` record, in
order, the calls whose `k_msgq_put` succeeded and the `uart_tx` calls of the worker. -/
structure Sys where
  spc : Nat → SPc
  completion_sem : Nat → Nat
  uart_tx_queue : List Msg
  uart_queue_mutex : Option Nat
  queue_contentions : Nat
  cb : CbState
  worker : WPc
  outstanding : Nat
  pushed : List Nat
  tx_calls : List TxCall
  rx_calls : List RxCall

/-- State after `main` has run: every call still to be made, queue empty, mutex free,
semaphores 0, worker about to wait for its first descriptor, nothing submitted. -/
def Sys.init : Sys :=
  { spc := fun _ => .entry
    completion_sem := fun _ => 0
    uart_tx_queue := []
    uart_queue_mutex := none
    queue_contentions := 0
    cb := CbState.init
    worker := .get
    outstanding := 0
    pushed := []
    tx_calls := []
    rx_calls := [initial_arm] }

/-- Atomic actions of the mode B system. -/
inductive Label where
  /-- Call `i` runs lines 165-179: length check, descriptor, `k_sem_init`. -/
  | s_entry (i : Nat)
  /-- Call `i` gets the mutex at line 186. -/
  | s_lock_ok (i : Nat)
  /-- The 2000 ms of line 186 pass with the mutex held by another call (lines 187-191). -/
  | s_lock_timeout (i : Nat)
  /-- The put of call `i` at line 196 succeeds. -/
  | s_put_ok (i : Nat)
  /-- The 1000 ms of line 196 pass with the queue full. -/
  | s_put_timeout (i : Nat)
  /-- Call `i` runs lines 199-200. -/
  | s_put_failed (i : Nat)
  /-- Call `i` runs line 204 and, when not synchronous, returns 0 at line 217. -/
  | s_unlock (i : Nat)
  /-- Call `i` takes its private semaphore at line 209 and returns 0. -/
  | s_wait_ok (i : Nat)
  /-- The 10000 ms of line 209 pass without the semaphore being given (lines 210-213). -/
  | s_wait_timeout (i : Nat)
  /-- The worker pops the head of the queue at line 123. -/
  | w_get
  /-- The worker calls `uart_tx` at line 133 and the adapter answers `ret`. -/
  | w_submit (ret : Int)
  /-- The worker runs lines 137-140. -/
  | w_tx_failed
  /-- The worker takes `uart_tx_complete_sem` at line 144. -/
  | w_wait_ok
  /-- The 5000 ms of line 144 pass without the semaphore being given. -/
  | w_wait_timeout
  /-- The worker runs lines 152-154. -/
  | w_signal
  /-- The adapter raises an event and the handler runs. A transmit-done or
  transmit-aborted event is raised only for an outstanding transmit, once. -/
  | adapter (e : EvtType)
  deriving DecidableEq, Repr

/-- Lines 137-139 and 152-154: `if (msg.completion_sem) k_sem_give(msg.completion_sem)`. -/
def give_completion (sems : Nat → Nat) (m : Msg) : Nat → Nat :=
  match m.completion_sem with
  | some i => Function.update sems i (k_sem_give (sems i))
  | none => sems

/-- One atomic action; `none` when the action is not enabled in the state. -/
def step (calls : Nat → Call) (s : Sys) : Label → Option Sys
  | .s_entry i =>
      if s.spc i = .entry then
        if (calls i).len ≥ BUF_SIZE then
          some { s with spc := Function.update s.spc i (.done (-EINVAL)) }
        else
          some { s with
            spc := Function.update s.spc i .lock
            completion_sem :=
              if (calls i).synchronous then Function.update s.completion_sem i 0
              else s.completion_sem }
      else none
  | .s_lock_ok i =>
      if s.spc i = .lock ∧ s.uart_queue_mutex = none then
        some { s with spc := Function.update s.spc i .put, uart_queue_mutex := some i }
      else none
  | .s_lock_timeout i =>
      if s.spc i = .lock ∧ s.uart_queue_mutex ≠ none then
        some { s with
          spc := Function.update s.spc i (.done (-EAGAIN))
          queue_contentions := (s.queue_contentions + 1) % 2 ^ 32 }
      else none
  | .s_put_ok i =>
      if s.spc i = .put ∧ s.uart_tx_queue.length < MSGQ_MAX then
        some { s with
          spc := Function.update s.spc i .unlock
          uart_tx_queue := s.uart_tx_queue ++ [(calls i).msg i]
          pushed := s.pushed ++ [i] }
      else none
  | .s_put_timeout i =>
      if s.spc i = .put ∧ ¬ s.uart_tx_queue.length < MSGQ_MAX then
        some { s with spc := Function.update s.spc i (.put_failed (-EAGAIN)) }
      else none
  | .s_put_failed i =>
      match s.spc i with
      | .put_failed ret =>
          some { s with
            spc := Function.update s.spc i (.done ret)
            uart_queue_mutex := k_mutex_unlock s.uart_queue_mutex i }
      | _ => none
  | .s_unlock i =>
      if s.spc i = .unlock then
        some { s with
          spc := Function.update s.spc i (if (calls i).synchronous then .wait else .done 0)
          uart_queue_mutex := k_mutex_unlock s.uart_queue_mutex i }
      else none
  | .s_wait_ok i =>
      if s.spc i = .wait ∧ 0 < s.completion_sem i then
        some { s with
          spc := Function.update s.spc i (.done 0)
          completion_sem := Function.update s.completion_sem i (s.completion_sem i - 1) }
      else none
  | .s_wait_timeout i =>
      if s.spc i = .wait ∧ s.completion_sem i = 0 then
        some { s with spc := Function.update s.spc i (.done (-EAGAIN)) }
      else none
  | .w_get =>
      match s.worker, s.uart_tx_queue with
      | .get, m :: q => some { s with worker := .submit m, uart_tx_queue := q }
      | _, _ => none
  | .w_submit ret =>
      match s.worker with
      | .submit m =>
          if ret ≠ 0 then
            some { s with
              worker := .tx_failed m
              tx_calls := s.tx_calls ++ [{ buf := m.data, len := m.len, ret := ret }] }
          else
            some { s with
              worker := .wait m
              outstanding := s.outstanding + 1
              tx_calls := s.tx_calls ++ [{ buf := m.data, len := m.len, ret := ret }] }
      | _ => none
  | .w_tx_failed =>
      match s.worker with
      | .tx_failed m =>
          some { s with worker := .get, completion_sem := give_completion s.completion_sem m }
      | _ => none
  | .w_wait_ok =>
      match s.worker with
      | .wait m =>
          if 0 < s.cb.tx_sem then
            some { s with worker := .signal m, cb := { s.cb with tx_sem := s.cb.tx_sem - 1 } }
          else none
      | _ => none
  | .w_wait_timeout =>
      match s.worker with
      | .wait m => if s.cb.tx_sem = 0 then some { s with worker := .signal m } else none
      | _ => none
  | .w_signal =>
      match s.worker with
      | .signal m =>
          some { s with worker := .get, completion_sem := give_completion s.completion_sem m }
      | _ => none
  | .adapter e =>
      if e.is_tx_completion then
        if 0 < s.outstanding then
          some { s with
            outstanding := s.outstanding - 1
            cb := (uart_callback s.cb e).1
            rx_calls := s.rx_calls ++ (uart_callback s.cb e).2 }
        else none
      else
        some { s with
          cb := (uart_callback s.cb e).1
          rx_calls := s.rx_calls ++ (uart_callback s.cb e).2 }

/-- Runs a sequence of actions; `none` when one of them is not enabled. -/
def run (calls : Nat → Call) : Sys → List Label → Option Sys
  | s, [] => some s
  | s, l :: ls =>
      match step calls s l with
      | some t => run calls t ls
      | none => none

/-- Accounting of the adapter's completion events while no completion wait of the worker has
timed out: during the wait exactly one of "transmit outstanding" and "semaphore given"
holds, elsewhere nothing is outstanding and the semaphore is 0. -/
def Single (s : Sys) : Prop :=
  match s.worker with
  | .wait _ => s.outstanding + s.cb.tx_sem = 1
  | _ => s.outstanding = 0 ∧ s.cb.tx_sem = 0

/-- The call whose `k_msgq_put` succeeds in an action, if the action is one. -/
def Label.put : Label → Option Nat
  | .s_put_ok i => some i
  | _ => none

/-- Two calls used to exhibit runs: call 0 sends 2 bytes without waiting, every other call
sends 1 byte synchronously. -/
def demo_calls : Nat → Call := fun i =>
  if i = 0 then { data := [1, 2, 3], len := 2, sender_id := 15, synchronous := false, stack := [] }
  else { data := [7], len := 1, sender_id := 1, synchronous := true, stack := [9, 9] }

/-- Calls 0 and 1 queue their descriptors; the worker has the first accepted, its 5000 ms
wait passes without a completion event, and it pops the second. -/
def overlap_labels : List Label :=
  [.s_entry 0, .s_lock_ok 0, .s_put_ok 0, .s_unlock 0,
   .s_entry 1, .s_lock_ok 1, .s_put_ok 1, .s_unlock 1,
   .w_get, .w_submit 0, .w_wait_timeout, .w_signal, .w_get]

/-- The synchronous call 1 queues its descriptor and the worker pops it. -/
def queued_sync_labels : List Label :=
  [.s_entry 1, .s_lock_ok 1, .s_put_ok 1, .s_unlock 1, .w_get]

end ModeB

/-! ### Mode A as a transition system: sending tasks and the adapter -/

namespace ModeA

/-- Arguments of one call of `uart_send_dma_protected`. Calls are numbered. -/
structure Call where
  data : List Nat
  len : Nat
  deriving DecidableEq, Repr

/-- Control points of a call of `uart_send_dma_protected`. -/
inductive Pc where
  /-- Line 110, before the length check. -/
  | entry
  /-- Line 116, in `k_mutex_lock`. -/
  | lock
  /-- Line 123, holding the mutex, before the test of `uart_tx_busy`. -/
  | check
  /-- Line 124, busy flag found set, before the unlock. -/
  | busy_unlock
  /-- Line 129, busy flag found clear, before setting it. -/
  | mark
  /-- Line 130, before the `memcpy` into `tx_buffer`. -/
  | copy
  /-- Line 134, before the call of `uart_tx`. -/
  | submit
  /-- Line 137, after a rejected `uart_tx`, before clearing the flag. -/
  | tx_failed (ret : Int)
  /-- Line 138, before the unlock of the failure path. -/
  | tx_failed_unlock (ret : Int)
  /-- Line 143, after an accepted `uart_tx`, before the unlock. -/
  | unlock
  /-- Line 146, in `k_sem_take` on `uart_tx_sem`. -/
  | wait
  /-- Line 153, in `k_mutex_lock` with `K_FOREVER`. -/
  | relock
  /-- Line 154, before clearing the flag. -/
  | clear
  /-- Line 155, before the last unlock. -/
  | reunlock
  /-- Returned `ret` to the call site. -/
  | done (ret : Int)
  deriving DecidableEq, Repr

/-- One `uart_tx` call as the adapter sees it: buffer, length and the result it answered. -/
structure TxCall where
  buf : List Nat
  len : Nat
  ret : Int
  deriving DecidableEq, Repr

/-- Whole-system state of mode A. `outstanding` is the adapter's number of accepted
transmits whose completion event it has not raised yet; `tx_calls` records the `uart_tx`
calls in order. -/
structure Sys where
  pc : Nat → Pc
  tx_buffer : List Nat
  uart_tx_busy : Bool
  uart_resource_mutex : Option Nat
  cb : CbState
  outstanding : Nat
  tx_calls : List TxCall
  rx_calls : List RxCall

/-- State after `main` has run: every call still to be made, `tx_buffer` zeroed (static
storage), flag clear, mutex free, semaphores 0, nothing submitted. -/
def Sys.init : Sys :=
  { pc := fun _ => .entry
    tx_buffer := List.replicate BUF_SIZE 0
    uart_tx_busy := false
    uart_resource_mutex := none
    cb := CbState.init
    outstanding := 0
    tx_calls := []
    rx_calls := [initial_arm] }

/-- Atomic actions of the mode A system. -/
inductive Label where
  /-- Call `i` runs the length check of lines 110-113. -/
  | t_entry (i : Nat)
  /-- Call `i` gets the mutex at line 116. -/
  | t_lock_ok (i : Nat)
  /-- The 1000 ms of line 116 pass with the mutex held by another call (lines 117-120). -/
  | t_lock_timeout (i : Nat)
  /-- Call `i` tests `uart_tx_busy` at line 123. -/
  | t_check (i : Nat)
  /-- Call `i` runs lines 124-125. -/
  | t_busy_unlock (i : Nat)
  /-- Call `i` runs line 129. -/
  | t_mark (i : Nat)
  /-- Call `i` runs line 130. -/
  | t_copy (i : Nat)
  /-- Call `i` calls `uart_tx` at line 134 and the adapter answers `ret`. -/
  | t_submit (i : Nat) (ret : Int)
  /-- Call `i` runs line 137. -/
  | t_fail_clear (i : Nat)
  /-- Call `i` runs lines 138-139. -/
  | t_fail_unlock (i : Nat)
  /-- Call `i` runs line 143. -/
  | t_unlock (i : Nat)
  /-- Call `i` takes `uart_tx_sem` at line 146. -/
  | t_wait_ok (i : Nat)
  /-- The 5000 ms of line 146 pass without the semaphore being given (lines 147-150). -/
  | t_wait_timeout (i : Nat)
  /-- Call `i` gets the mutex at line 153. -/
  | t_relock (i : Nat)
  /-- Call `i` runs line 154. -/
  | t_clear (i : Nat)
  /-- Call `i` runs lines 155-158. -/
  | t_reunlock (i : Nat)
  /-- The adapter raises an event and the handler runs. A transmit-done or
  transmit-aborted event is raised only for an outstanding transmit, once. -/
  | adapter (e : EvtType)
  deriving DecidableEq, Repr

/-- One atomic action; `none` when the action is not enabled in the state. -/
def step (calls : Nat → Call) (s : Sys) : Label → Option Sys
  | .t_entry i =>
      if s.pc i = .entry then
        if (calls i).len > BUF_SIZE then
          some { s with pc := Function.update s.pc i (.done (-EINVAL)) }
        else
          some { s with pc := Function.update s.pc i .lock }
      else none
  | .t_lock_ok i =>
      if s.pc i = .lock ∧ s.uart_resource_mutex = none then
        some { s with pc := Function.update s.pc i .check, uart_resource_mutex := some i }
      else none
  | .t_lock_timeout i =>
      if s.pc i = .lock ∧ s.uart_resource_mutex ≠ none then
        some { s with pc := Function.update s.pc i (.done (-EAGAIN)) }
      else none
  | .t_check i =>
      if s.pc i = .check then
        some { s with pc := Function.update s.pc i (if s.uart_tx_busy then .busy_unlock else .mark) }
      else none
  | .t_busy_unlock i =>
      if s.pc i = .busy_unlock then
        some { s with
          pc := Function.update s.pc i (.done (-EBUSY))
          uart_resource_mutex := k_mutex_unlock s.uart_resource_mutex i }
      else none
  | .t_mark i =>
      if s.pc i = .mark then
        some { s with pc := Function.update s.pc i .copy, uart_tx_busy := true }
      else none
  | .t_copy i =>
      if s.pc i = .copy then
        some { s with
          pc := Function.update s.pc i .submit
          tx_buffer := memcpy s.tx_buffer (calls i).data (calls i).len }
      else none
  | .t_submit i ret =>
      if s.pc i = .submit then
        if ret ≠ 0 then
          some { s with
            pc := Function.update s.pc i (.tx_failed ret)
            tx_calls := s.tx_calls ++ [{ buf := s.tx_buffer, len := (calls i).len, ret := ret }] }
        else
          some { s with
            pc := Function.update s.pc i .unlock
            outstanding := s.outstanding + 1
            tx_calls := s.tx_calls ++ [{ buf := s.tx_buffer, len := (calls i).len, ret := ret }] }
      else none
  | .t_fail_clear i =>
      match s.pc i with
      | .tx_failed ret =>
          some { s with pc := Function.update s.pc i (.tx_failed_unlock ret), uart_tx_busy := false }
      | _ => none
  | .t_fail_unlock i =>
      match s.pc i with
      | .tx_failed_unlock ret =>
          some { s with
            pc := Function.update s.pc i (.done ret)
            uart_resource_mutex := k_mutex_unlock s.uart_resource_mutex i }
      | _ => none
  | .t_unlock i =>
      if s.pc i = .unlock then
        some { s with
          pc := Function.update s.pc i .wait
          uart_resource_mutex := k_mutex_unlock s.uart_resource_mutex i }
      else none
  | .t_wait_ok i =>
      if s.pc i = .wait ∧ 0 < s.cb.tx_sem then
        some { s with
          pc := Function.update s.pc i .relock
          cb := { s.cb with tx_sem := s.cb.tx_sem - 1 } }
      else none
  | .t_wait_timeout i =>
      if s.pc i = .wait ∧ s.cb.tx_sem = 0 then
        some { s with pc := Function.update s.pc i (.done (-EAGAIN)) }
      else none
  | .t_relock i =>
      if s.pc i = .relock ∧ s.uart_resource_mutex = none then
        some { s with pc := Function.update s.pc i .clear, uart_resource_mutex := some i }
      else none
  | .t_clear i =>
      if s.pc i = .clear then
        some { s with pc := Function.update s.pc i .reunlock, uart_tx_busy := false }
      else none
  | .t_reunlock i =>
      if s.pc i = .reunlock then
        some { s with
          pc := Function.update s.pc i (.done 0)
          uart_resource_mutex := k_mutex_unlock s.uart_resource_mutex i }
      else none
  | .adapter e =>
      if e.is_tx_completion then
        if 0 < s.outstanding then
          some { s with
            outstanding := s.outstanding - 1
            cb := (uart_callback s.cb e).1
            rx_calls := s.rx_calls ++ (uart_callback s.cb e).2 }
        else none
      else
        some { s with
          cb := (uart_callback s.cb e).1
          rx_calls := s.rx_calls ++ (uart_callback s.cb e).2 }

/-- Runs a sequence of actions; `none` when one of them is not enabled. -/
def run (calls : Nat → Call) : Sys → List Label → Option Sys
  | s, [] => some s
  | s, l :: ls =>
      match step calls s l with
      | some t => run calls t ls
      | none => none

/-- Control points at which the call holds `uart_resource_mutex`. -/
def Pc.holds : Pc → Bool
  | .check | .busy_unlock | .mark | .copy | .submit | .tx_failed _ | .tx_failed_unlock _
  | .unlock | .clear | .reunlock => true
  | _ => false

/-- Control points between setting the busy flag at line 129 and clearing it at line 137
or 154: the call owns the staging buffer and the transmit it has submitted. -/
def Pc.owns : Pc → Bool
  | .copy | .submit | .tx_failed _ | .unlock | .wait | .relock | .clear => true
  | _ => false

/-- Control points at which nothing is outstanding and `uart_tx_sem` is 0: before the
submission, and after the completion event has been taken. -/
def Pc.quiet : Pc → Bool
  | .copy | .submit | .tx_failed _ | .relock | .clear => true
  | _ => false

/-- The mutex records its holder: a call at a control point inside a locked region is the
owner of `uart_resource_mutex`. -/
def Holder (s : Sys) : Prop :=
  ∀ i, (s.pc i).holds = true → s.uart_resource_mutex = some i

/-- What the busy flag guards: at most one call owns the flag, the flag is set while it is
owned, it is clear for the call that has just found it clear, nothing is outstanding while
it is clear, and a transmit is either outstanding or signalled, never both. -/
structure Flags (s : Sys) : Prop where
  owner : ∀ i j, (s.pc i).owns = true → (s.pc j).owns = true → i = j
  busy : ∀ i, (s.pc i).owns = true → s.uart_tx_busy = true
  marked : ∀ i, s.pc i = .mark → s.uart_tx_busy = false
  idle : s.uart_tx_busy = false → s.outstanding = 0 ∧ s.cb.tx_sem = 0
  one : s.outstanding + s.cb.tx_sem ≤ 1
  quiet : ∀ i, (s.pc i).quiet = true → s.outstanding = 0 ∧ s.cb.tx_sem = 0

/-- The inductive invariant of the mode A system. -/
def Inv (s : Sys) : Prop := Holder s ∧ Flags s

/-- Calls used to exhibit a run: every call sends the same 2 bytes. -/
def guard_calls : Nat → Call := fun _ => { data := [104, 105], len := 2 }

/-- Call 0 passes the length check, takes the mutex, finds the flag clear, sets it and copies
its payload: it stands before `uart_tx`. -/
def guard_labels : List Label :=
  [.t_entry 0, .t_lock_ok 0, .t_check 0, .t_mark 0, .t_copy 0]

/-- The busy flag is set and no call is left that could clear it: no call is between
setting and clearing the flag, and none has just found it clear. -/
def Stuck (s : Sys) : Prop :=
  s.uart_tx_busy = true ∧ ∀ j, (s.pc j).owns = false ∧ s.pc j ≠ .mark

/-- Call `j` holds the lock with the flag set against it, or has returned `-EBUSY`. -/
def Refused (s : Sys) (j : Nat) : Prop :=
  s.pc j = .check ∨ s.pc j = .busy_unlock ∨ s.pc j = .done (-EBUSY)

/-- Call 0 submits its payload, the adapter accepts it, and the call releases the lock: it
stands in the completion wait of line 146 with no completion event raised yet. -/
def submitted_labels : List Label :=
  [.t_entry 0, .t_lock_ok 0, .t_check 0, .t_mark 0, .t_copy 0, .t_submit 0 0, .t_unlock 0]

/-- The late completion event arrives, then call 1 passes the length check and takes the
lock. -/
def late_labels : List Label :=
  [.adapter .UART_TX_DONE, .t_entry 1, .t_lock_ok 1]

/-! ### Mode A under the priority-inheriting lock and the priority scheduler -/

/-- The call that performs an action, `none` for the adapter's interrupt. -/
def Label.task : Label → Option Nat
  | .t_entry i | .t_lock_ok i | .t_lock_timeout i | .t_check i | .t_busy_unlock i | .t_mark i
  | .t_copy i | .t_submit i _ | .t_fail_clear i | .t_fail_unlock i | .t_unlock i | .t_wait_ok i
  | .t_wait_timeout i | .t_relock i | .t_clear i | .t_reunlock i => some i
  | .adapter _ => none

/-- Actions in which `k_mutex_lock` returns 0 (lines 116 and 153). -/
def Label.acquires : Label → Bool
  | .t_lock_ok _ | .t_relock _ => true
  | _ => false

/-- Actions that call `k_mutex_unlock` (lines 124, 138, 143 and 155). -/
def Label.releases : Label → Bool
  | .t_busy_unlock _ | .t_fail_unlock _ | .t_unlock _ | .t_reunlock _ => true
  | _ => false

/-- Actions with which a blocked call resumes because its timeout has expired (lines 116
and 146). -/
def Label.is_timeout : Label → Bool
  | .t_lock_timeout _ | .t_wait_timeout _ => true
  | _ => false

/-- Modelled from the spec: the state of the priority-inheriting lock and of the scheduler,
which the source uses through Zephyr's `k_mutex`, `k_sleep` and thread scheduler and which
are not under src/. Section 3: "holder identity (or none), boosted-priority value of the
holder while held, wait queue ordered by task priority". The holder is
`sys.uart_resource_mutex`; `boosted` is the holder's boosted priority; `waiting i` says that
the task of call `i` is in the wait queue; `sleeping i` that it is in an explicit sleep
(section 5, suspension points). A larger priority value is a higher priority. -/
structure Sched where
  sys : Sys
  waiting : Nat → Bool
  boosted : Int
  sleeping : Nat → Bool

/-- State after `main` has run: the mode A system in its initial state, nobody waiting or
sleeping. -/
def Sched.init : Sched :=
  { sys := Sys.init, waiting := fun _ => false, boosted := 0, sleeping := fun _ => false }

/-- Modelled from the spec: the effective priority of a task (section 4.2, not under src/):
the boosted value for the holder of the lock, the baseline `prio i` for every other task
("priority reverts to the holder's baseline on release"). -/
def eff (prio : Nat → Int) (s : Sched) (i : Nat) : Int :=
  if s.sys.uart_resource_mutex = some i then s.boosted else prio i

/-- Modelled from the spec: the suspension points of section 5 (not under src/). A task is
suspended in an explicit sleep, in the wait queue of a lock that is held, and in the
completion wait of line 146 while the semaphore is 0; otherwise it is ready. -/
def ready (s : Sched) (i : Nat) : Bool :=
  !s.sleeping i && !(s.waiting i && s.sys.uart_resource_mutex.isSome) &&
    !(decide (s.sys.pc i = .wait) && decide (s.sys.cb.tx_sem = 0))

/-- Modelled from the spec: the "preemptive, priority-based" scheduling of section 5 (not
under src/) on one processor: task `i` of the `n` tasks may run only when no ready task has
a higher effective priority. The choice among ready tasks of equal priority is left open,
which covers time slicing as well as cooperative tasks that run to a yield point. -/
def top (n : Nat) (prio : Nat → Int) (s : Sched) (i : Nat) : Bool :=
  (List.range n).all fun j => !ready s j || decide (eff prio s j ≤ eff prio s i)

/-- Modelled from the spec: "highest-priority waiter is granted the lock next on release"
(section 5, not under src/): a task may take the free lock only when no task in the wait
queue has a higher priority. -/
def grantable (n : Nat) (prio : Nat → Int) (s : Sched) (i : Nat) : Bool :=
  (List.range n).all fun j => !s.waiting j || decide (prio j ≤ prio i)

/-- Actions of the scheduled mode A system. -/
inductive SLabel where
  /-- An action of the mode A system: of the task that runs, or of the adapter. -/
  | act (l : Label)
  /-- Task `i` calls `k_mutex_lock` (line 116 or 153), finds the lock held and joins the
  wait queue. -/
  | block (i : Nat)
  /-- Task `i` computes outside `uart_send_dma_protected`: the message formatting of the
  senders, the busy loop of `medium_priority_task`. -/
  | cpu (i : Nat)
  /-- Task `i` calls `k_sleep` outside `uart_send_dma_protected`. -/
  | sleep (i : Nat)
  /-- The sleep of task `i` ends. -/
  | wake (i : Nat)
  deriving DecidableEq, Repr

/-- The task that runs in an action; `none` for the adapter's interrupt and the timer. -/
def SLabel.task : SLabel → Option Nat
  | .act l => l.task
  | .block i | .cpu i | .sleep i => some i
  | .wake _ => none

/-- Whether the task of call `i` is outside `uart_send_dma_protected`. -/
def Pc.outside : Pc → Bool
  | .entry | .done _ => true
  | _ => false

/-- Modelled from the spec: one action of the mode A system under the priority-inheriting
lock of sections 3 and 4.2 and the scheduler of section 5 (Zephyr's `k_mutex` and scheduler,
not under src/). A task acts only when it is ready, or resumes by a timeout, and no ready
task has a higher effective priority. What the action does to the globals is `step`, the
embedding of the source. On taking the lock the boosted value starts at the taker's
baseline; a task that calls acquire on the held lock joins the wait queue and raises the
boosted value to its own priority when that is higher ("raises the holder's scheduling
priority to the waiter's priority for the duration of the hold"). -/
def sstep (n : Nat) (prio : Nat → Int) (calls : Nat → Call) (s : Sched) : SLabel → Option Sched
  | .act l =>
      match l.task with
      | none => (step calls s.sys l).map fun t => { s with sys := t }
      | some i =>
          if i < n ∧ (ready s i = true ∨ l.is_timeout = true) ∧ top n prio s i = true then
            if l.acquires then
              if grantable n prio s i then
                (step calls s.sys l).map fun t =>
                  { s with sys := t, waiting := Function.update s.waiting i false,
                           boosted := prio i }
              else none
            else if l = .t_lock_timeout i then
              if s.waiting i then
                (step calls s.sys l).map fun t =>
                  { s with sys := t, waiting := Function.update s.waiting i false }
              else none
            else (step calls s.sys l).map fun t => { s with sys := t }
          else none
  | .block i =>
      if i < n ∧ (s.sys.pc i = .lock ∨ s.sys.pc i = .relock) ∧ s.waiting i = false ∧
          s.sys.uart_resource_mutex.isSome = true ∧ ready s i = true ∧ top n prio s i = true then
        some { s with waiting := Function.update s.waiting i true,
                      boosted := max s.boosted (prio i) }
      else none
  | .cpu i =>
      if i < n ∧ (s.sys.pc i).outside = true ∧ ready s i = true ∧ top n prio s i = true then
        some s
      else none
  | .sleep i =>
      if i < n ∧ (s.sys.pc i).outside = true ∧ ready s i = true ∧ top n prio s i = true then
        some { s with sleeping := Function.update s.sleeping i true }
      else none
  | .wake i =>
      if s.sleeping i then some { s with sleeping := Function.update s.sleeping i false }
      else none

/-- Runs a sequence of actions of the scheduled system; `none` when one is not enabled. -/
def srun (n : Nat) (prio : Nat → Int) (calls : Nat → Call) : Sched → List SLabel → Option Sched
  | s, [] => some s
  | s, l :: ls =>
      match sstep n prio calls s l with
      | some t => srun n prio calls t ls
      | none => none

/-- Priorities of the three threads of lines 239-246, a larger value being a higher
priority: task 0 is `high_thread` (`K_PRIO_COOP(5)`, Zephyr number -11 with the default 16
cooperative levels), task 1 is `med_thread` (`K_PRIO_PREEMPT(10)`, number 10), every other
task is `low_thread` (`K_PRIO_PREEMPT(15)`, number 15). Zephyr numbers are negated. -/
def thread_prio : Nat → Int := fun i =>
  if i = 0 then 11 else if i = 1 then -10 else -15

/-- The high and medium tasks sleep, the low task (call 2) takes the lock, both sleeps end,
the high task (call 0) enters `uart_send_dma_protected` and blocks on the lock. -/
def inversion_labels : List SLabel :=
  [.sleep 0, .sleep 1, .act (.t_entry 2), .act (.t_lock_ok 2), .wake 0, .wake 1,
   .act (.t_entry 0), .block 0]

/-- What the scheduled system keeps true: the lock is held by a task among the `n` that is
inside a locked region; the wait queue holds tasks that stand in `k_mutex_lock`; sleeping
tasks are outside the call; and while the lock is held the boosted value is at least the
priority of every task in the wait queue. -/
structure SInv (n : Nat) (prio : Nat → Int) (s : Sched) : Prop where
  inv : Inv s.sys
  locked : ∀ i, s.sys.uart_resource_mutex = some i → (s.sys.pc i).holds = true ∧ i < n
  queued : ∀ i, s.waiting i = true → (s.sys.pc i = .lock ∨ s.sys.pc i = .relock) ∧ i < n
  asleep : ∀ i, s.sleeping i = true → (s.sys.pc i).outside = true
  boost : ∀ i j, s.sys.uart_resource_mutex = some i → s.waiting j = true → prio j ≤ s.boosted

end ModeA

end Uart

/-! # Theorems -/

namespace Uart

/-! ## Shared lemmas -/

theorem memcpy_take (dst src : List Nat) (n : Nat) (h : n ≤ src.length) :
    (memcpy dst src n).take n = src.take n := by
  unfold memcpy
  have hl : (src.take n).length = n := by simp [List.length_take, h]
  rw [List.take_append_of_le_length (by omega)]
  rw [List.take_of_length_le (by omega)]

theorem callback_queue_eq : ModeB.uart_callback = ModeA.uart_callback := by
  funext s e
  cases e <;> rfl

/-! ## Mode A, one call -/

/-- C1. Whenever `uart_send_dma_protected s data len e` returns 0 (for any `len`, so for
every `len ≤ 64`, with `data` holding at least `len` bytes), the call made exactly one
`uart_tx` call, its length argument is `len`, and the first `len` bytes of the staging
buffer passed are `data[0..len)`. -/
theorem ModeA.send_success_delivers (s : ModeA.State) (data : List Nat) (len : Nat)
    (e : ModeA.Env) (hdata : len ≤ data.length)
    (hret : (ModeA.uart_send_dma_protected s data len e).ret = 0) :
    ∃ buf, (ModeA.uart_send_dma_protected s data len e).tx_calls = [(buf, len)] ∧
      buf = (ModeA.uart_send_dma_protected s data len e).st.tx_buffer ∧
      buf.take len = data.take len := by
  unfold ModeA.uart_send_dma_protected at hret ⊢
  by_cases h1 : len > BUF_SIZE
  · simp [h1, EINVAL] at hret
  by_cases h2 : e.lock_ret = 0
  swap
  · simp [h1, h2] at hret
  by_cases h3 : s.uart_tx_busy = true
  · simp [h1, h2, h3, EBUSY] at hret
  by_cases h4 : e.tx_ret = 0
  swap
  · simp [h1, h2, h3, h4] at hret
  by_cases h5 : e.sem_ret = 0
  swap
  · simp [h1, h2, h3, h4, h5] at hret
  refine ⟨memcpy s.tx_buffer data len, ?_, ?_, memcpy_take _ _ _ hdata⟩
  · simp [h1, h2, h3, h4, h5, ModeA.Outcome.tx_calls, ModeA.Act.tx_args]
  · simp [h1, h2, h3, h4, h5]

/-- Witness of C1: a 3-byte payload sent from a clear state with every wait answered 0. -/
theorem ModeA.send_success_delivers_witness :
    ∃ buf, (ModeA.uart_send_dma_protected ⟨List.replicate 64 0, false, 0⟩ [104, 105, 10] 3
        ⟨0, 0, 0⟩).tx_calls = [(buf, 3)] ∧
      buf = (ModeA.uart_send_dma_protected ⟨List.replicate 64 0, false, 0⟩ [104, 105, 10] 3
        ⟨0, 0, 0⟩).st.tx_buffer ∧
      buf.take 3 = [104, 105, 10].take 3 :=
  ModeA.send_success_delivers ⟨List.replicate 64 0, false, 0⟩ [104, 105, 10] 3 ⟨0, 0, 0⟩
    (by decide) (by decide)

/-- C10. A call that starts without the lock and fails at or before the submission leaves
the lock released and the busy flag as it was on entry. (1) `len > 64`: returns `-EINVAL`;
(2) lock not acquired: returns the lock's error; (3) busy flag set: returns `-EBUSY`;
in these three cases `uart_tx` is not called and `tx_buffer` is unchanged; (4) the adapter
rejects the submission: returns the adapter's code unchanged. -/
theorem ModeA.send_failure_atomic (s : ModeA.State) (data : List Nat) (len : Nat)
    (e : ModeA.Env) (hs : s.lock_count = 0) :
    (len > 64 →
      (ModeA.uart_send_dma_protected s data len e).ret = -EINVAL ∧
      (ModeA.uart_send_dma_protected s data len e).st.lock_count = 0 ∧
      (ModeA.uart_send_dma_protected s data len e).st.uart_tx_busy = s.uart_tx_busy ∧
      (ModeA.uart_send_dma_protected s data len e).tx_calls = [] ∧
      (ModeA.uart_send_dma_protected s data len e).st.tx_buffer = s.tx_buffer) ∧
    (len ≤ 64 → e.lock_ret ≠ 0 →
      (ModeA.uart_send_dma_protected s data len e).ret = e.lock_ret ∧
      (ModeA.uart_send_dma_protected s data len e).st.lock_count = 0 ∧
      (ModeA.uart_send_dma_protected s data len e).st.uart_tx_busy = s.uart_tx_busy ∧
      (ModeA.uart_send_dma_protected s data len e).tx_calls = [] ∧
      (ModeA.uart_send_dma_protected s data len e).st.tx_buffer = s.tx_buffer) ∧
    (len ≤ 64 → e.lock_ret = 0 → s.uart_tx_busy = true →
      (ModeA.uart_send_dma_protected s data len e).ret = -EBUSY ∧
      (ModeA.uart_send_dma_protected s data len e).st.lock_count = 0 ∧
      (ModeA.uart_send_dma_protected s data len e).st.uart_tx_busy = s.uart_tx_busy ∧
      (ModeA.uart_send_dma_protected s data len e).tx_calls = [] ∧
      (ModeA.uart_send_dma_protected s data len e).st.tx_buffer = s.tx_buffer) ∧
    (len ≤ 64 → e.lock_ret = 0 → s.uart_tx_busy = false → e.tx_ret ≠ 0 →
      (ModeA.uart_send_dma_protected s data len e).ret = e.tx_ret ∧
      (ModeA.uart_send_dma_protected s data len e).st.lock_count = 0 ∧
      (ModeA.uart_send_dma_protected s data len e).st.uart_tx_busy = s.uart_tx_busy) := by
  refine ⟨?_, ?_, ?_, ?_⟩
  · intro h1
    have h1' : len > BUF_SIZE := h1
    simp [ModeA.uart_send_dma_protected, h1', hs, ModeA.Outcome.tx_calls]
  · intro h1 h2
    have h1' : ¬ len > BUF_SIZE := by simp only [BUF_SIZE]; omega
    simp [ModeA.uart_send_dma_protected, h1', h2, hs, ModeA.Outcome.tx_calls, ModeA.Act.tx_args]
  · intro h1 h2 h3
    have h1' : ¬ len > BUF_SIZE := by simp only [BUF_SIZE]; omega
    simp [ModeA.uart_send_dma_protected, h1', h2, h3, hs, ModeA.Outcome.tx_calls,
      ModeA.Act.tx_args]
  · intro h1 h2 h3 h4
    have h1' : ¬ len > BUF_SIZE := by simp only [BUF_SIZE]; omega
    simp [ModeA.uart_send_dma_protected, h1', h2, h3, h4, hs]

/-- Witness of C10: the four failures on concrete calls (65 bytes; lock answer -11; flag
set; adapter answer -5). -/
theorem ModeA.send_failure_atomic_witness :
    ((ModeA.uart_send_dma_protected ⟨List.replicate 64 0, true, 0⟩ (List.replicate 65 7) 65
        ⟨0, 0, 0⟩).ret = -EINVAL ∧
      (ModeA.uart_send_dma_protected ⟨List.replicate 64 0, true, 0⟩ (List.replicate 65 7) 65
        ⟨0, 0, 0⟩).st.lock_count = 0 ∧
      (ModeA.uart_send_dma_protected ⟨List.replicate 64 0, true, 0⟩ (List.replicate 65 7) 65
        ⟨0, 0, 0⟩).st.uart_tx_busy = true ∧
      (ModeA.uart_send_dma_protected ⟨List.replicate 64 0, true, 0⟩ (List.replicate 65 7) 65
        ⟨0, 0, 0⟩).tx_calls = [] ∧
      (ModeA.uart_send_dma_protected ⟨List.replicate 64 0, true, 0⟩ (List.replicate 65 7) 65
        ⟨0, 0, 0⟩).st.tx_buffer = List.replicate 64 0) ∧
    ((ModeA.uart_send_dma_protected ⟨[], false, 0⟩ [1, 2] 2 ⟨-11, 0, 0⟩).ret = -11 ∧
      (ModeA.uart_send_dma_protected ⟨[], false, 0⟩ [1, 2] 2 ⟨-11, 0, 0⟩).st.lock_count = 0 ∧
      (ModeA.uart_send_dma_protected ⟨[], false, 0⟩ [1, 2] 2 ⟨-11, 0, 0⟩).st.uart_tx_busy
        = false ∧
      (ModeA.uart_send_dma_protected ⟨[], false, 0⟩ [1, 2] 2 ⟨-11, 0, 0⟩).tx_calls = [] ∧
      (ModeA.uart_send_dma_protected ⟨[], false, 0⟩ [1, 2] 2 ⟨-11, 0, 0⟩).st.tx_buffer = []) ∧
    ((ModeA.uart_send_dma_protected ⟨[9, 9], true, 0⟩ [1, 2] 2 ⟨0, 0, 0⟩).ret = -EBUSY ∧
      (ModeA.uart_send_dma_protected ⟨[9, 9], true, 0⟩ [1, 2] 2 ⟨0, 0, 0⟩).st.lock_count = 0 ∧
      (ModeA.uart_send_dma_protected ⟨[9, 9], true, 0⟩ [1, 2] 2 ⟨0, 0, 0⟩).st.uart_tx_busy
        = true ∧
      (ModeA.uart_send_dma_protected ⟨[9, 9], true, 0⟩ [1, 2] 2 ⟨0, 0, 0⟩).tx_calls = [] ∧
      (ModeA.uart_send_dma_protected ⟨[9, 9], true, 0⟩ [1, 2] 2 ⟨0, 0, 0⟩).st.tx_buffer
        = [9, 9]) ∧
    ((ModeA.uart_send_dma_protected ⟨[9, 9], false, 0⟩ [1, 2] 2 ⟨0, -5, 0⟩).ret = -5 ∧
      (ModeA.uart_send_dma_protected ⟨[9, 9], false, 0⟩ [1, 2] 2 ⟨0, -5, 0⟩).st.lock_count = 0 ∧
      (ModeA.uart_send_dma_protected ⟨[9, 9], false, 0⟩ [1, 2] 2 ⟨0, -5, 0⟩).st.uart_tx_busy
        = false) :=
  ⟨(ModeA.send_failure_atomic ⟨List.replicate 64 0, true, 0⟩ (List.replicate 65 7) 65
      ⟨0, 0, 0⟩ rfl).1 (by decide),
   (ModeA.send_failure_atomic ⟨[], false, 0⟩ [1, 2] 2 ⟨-11, 0, 0⟩ rfl).2.1
      (by decide) (by decide),
   (ModeA.send_failure_atomic ⟨[9, 9], true, 0⟩ [1, 2] 2 ⟨0, 0, 0⟩ rfl).2.2.1
      (by decide) rfl rfl,
   (ModeA.send_failure_atomic ⟨[9, 9], false, 0⟩ [1, 2] 2 ⟨0, -5, 0⟩ rfl).2.2.2
      (by decide) rfl rfl (by decide)⟩

/-! ## Mode B, one call -/

/-- C2 (evaluation at the boundary). A call of `uart_send_queued` with `len = 64`, which
fills `msg.data[64]` exactly, is rejected by line 165 with `-EINVAL` before any kernel call
and with the globals untouched. -/
theorem ModeB.send_queued_rejects_64 (s : ModeB.State) (self : Nat) (data : List Nat)
    (sender_id : Nat) ( synchronous : Bool) (e : ModeB.Env) :
    ModeB.uart_send_queued s self data 64 sender_id synchronous e
      = { ret := -EINVAL, st := s, acts := [] } := by
  simp [ModeB.uart_send_queued, BUF_SIZE]

/-- C9. For a message that passes the length check (`len < 64`) and a caller that got the
queue mutex: when the queue holds its 10 descriptors and the worker pops none within the
1000 ms of the put, `uart_send_queued` returns the non-zero `-EAGAIN` of `k_msgq_put`, the
queue is as it was, the mutex is released by the last kernel call made, and `k_sem_take` is
never called; for either value of `synchronous`. -/
theorem ModeB.send_queued_full (s : ModeB.State) (self : Nat) (data : List Nat)
    (len sender_id : Nat) ( synchronous : Bool) (e : ModeB.Env)
    (hlen : len < 64) (hs : s.lock_count = 0) (hlock : e.lock_ret = 0)
    (hfull : s.uart_tx_queue.length = 10) (hdrain : e.drained = false) :
    (ModeB.uart_send_queued s self data len sender_id synchronous e).ret = -EAGAIN ∧
    (ModeB.uart_send_queued s self data len sender_id synchronous e).ret ≠ 0 ∧
    (ModeB.uart_send_queued s self data len sender_id synchronous e).st.uart_tx_queue
      = s.uart_tx_queue ∧
    (ModeB.uart_send_queued s self data len sender_id synchronous e).st.lock_count = 0 ∧
    (ModeB.uart_send_queued s self data len sender_id synchronous e).acts.getLast?
      = some ModeB.Act.k_mutex_unlock ∧
    ModeB.Act.k_sem_take ∉
      (ModeB.uart_send_queued s self data len sender_id synchronous e).acts := by
  have h1 : ¬ len ≥ BUF_SIZE := by simp only [BUF_SIZE]; omega
  have h2 : ¬ s.uart_tx_queue.length < ModeB.MSGQ_MAX := by simp [ModeB.MSGQ_MAX, hfull]
  cases synchronous <;>
    simp [ModeB.uart_send_queued, ModeB.k_msgq_put, h1, h2, hlock, hdrain, hs, EAGAIN]

/-- Witness of C9: a synchronous 2-byte send into a queue of 10 descriptors. -/
theorem ModeB.send_queued_full_witness :
    (ModeB.uart_send_queued ⟨List.replicate 10 ⟨[], 0, none, 0⟩, 0, 0⟩ 0 [1, 2] 2 1 true
        ⟨[], 0, false, 0⟩).ret = -EAGAIN ∧
    (ModeB.uart_send_queued ⟨List.replicate 10 ⟨[], 0, none, 0⟩, 0, 0⟩ 0 [1, 2] 2 1 true
        ⟨[], 0, false, 0⟩).ret ≠ 0 ∧
    (ModeB.uart_send_queued ⟨List.replicate 10 ⟨[], 0, none, 0⟩, 0, 0⟩ 0 [1, 2] 2 1 true
        ⟨[], 0, false, 0⟩).st.uart_tx_queue = List.replicate 10 ⟨[], 0, none, 0⟩ ∧
    (ModeB.uart_send_queued ⟨List.replicate 10 ⟨[], 0, none, 0⟩, 0, 0⟩ 0 [1, 2] 2 1 true
        ⟨[], 0, false, 0⟩).st.lock_count = 0 ∧
    (ModeB.uart_send_queued ⟨List.replicate 10 ⟨[], 0, none, 0⟩, 0, 0⟩ 0 [1, 2] 2 1 true
        ⟨[], 0, false, 0⟩).acts.getLast? = some ModeB.Act.k_mutex_unlock ∧
    ModeB.Act.k_sem_take ∉
      (ModeB.uart_send_queued ⟨List.replicate 10 ⟨[], 0, none, 0⟩, 0, 0⟩ 0 [1, 2] 2 1 true
        ⟨[], 0, false, 0⟩).acts :=
  ModeB.send_queued_full ⟨List.replicate 10 ⟨[], 0, none, 0⟩, 0, 0⟩ 0 [1, 2] 2 1 true
    ⟨[], 0, false, 0⟩ (by decide) rfl rfl (by decide) rfl

/-! ## Receive path -/

theorem alternating_rsp_add_two (k : Nat) : alternating_rsp (k + 2) = alternating_rsp k := by
  unfold alternating_rsp
  have h : (k + 2) % 2 = k % 2 := by omega
  rw [h]

theorem callback_buf_request (s : CbState) :
    ModeA.uart_callback s .UART_RX_BUF_REQUEST
      = ({ s with use_rx_buffer_1 := !s.use_rx_buffer_1 },
         [.uart_rx_buf_rsp (if s.use_rx_buffer_1 then .rx_double_buffer else .rx_buffer) 64]) := by
  cases hb : s.use_rx_buffer_1 <;> simp [ModeA.uart_callback, hb, BUF_SIZE]

theorem run_buf_requests (N : Nat) (s : CbState) :
    (run_events ModeA.uart_callback s (List.replicate N .UART_RX_BUF_REQUEST)).2
      = (List.range N).map
          (fun j => alternating_rsp (if s.use_rx_buffer_1 then j + 1 else j + 2)) := by
  induction N generalizing s with
  | zero => rfl
  | succ n ih =>
    rw [List.replicate_succ, List.range_succ_eq_map, List.map_cons, List.map_map]
    simp only [run_events]
    rw [ih, callback_buf_request]
    cases hb : s.use_rx_buffer_1
    · refine congrArg₂ List.cons ?_ ?_
      · simp [alternating_rsp]
      · apply List.map_congr_left
        intro j _
        simp [alternating_rsp_add_two]
    · refine congrArg₂ List.cons ?_ ?_
      · simp [alternating_rsp]
      · apply List.map_congr_left
        intro j _
        simp

theorem chain_buf_requests (N : Nat) (s : CbState) (prev : RxCall)
    (h : prev.buf = if s.use_rx_buffer_1 then .rx_buffer else .rx_double_buffer) :
    List.Chain (fun a b => a.buf ≠ b.buf) prev
      (run_events ModeA.uart_callback s (List.replicate N .UART_RX_BUF_REQUEST)).2.flatten := by
  induction N generalizing s prev with
  | zero => simp [run_events]
  | succ n ih =>
    rw [List.replicate_succ]
    simp only [run_events, List.flatten_cons]
    rw [callback_buf_request]
    simp only [List.singleton_append, List.chain_cons]
    refine ⟨?_, ih _ _ ?_⟩
    · cases hb : s.use_rx_buffer_1 <;> rw [hb] at h <;> rw [h] <;> decide
    · cases hb : s.use_rx_buffer_1 <;> simp [RxCall.buf]

/-- C6. From the initial state (primary buffer armed, `use_rx_buffer_1 = true`), for every
`N`, the responses of either handler to `N` consecutive buffer requests are, for
`k = 1 .. N`, the secondary buffer when `k` is odd and the primary buffer when `k` is even,
each with capacity 64; and in the sequence of adapter calls that starts with the initial arm
no call names the same buffer as the call before it. -/
theorem double_buffer_alternation (N : Nat) :
    (run_events ModeA.uart_callback CbState.init (List.replicate N .UART_RX_BUF_REQUEST)).2
      = (List.range N).map (fun j => alternating_rsp (j + 1)) ∧
    (run_events ModeB.uart_callback CbState.init (List.replicate N .UART_RX_BUF_REQUEST)).2
      = (List.range N).map (fun j => alternating_rsp (j + 1)) ∧
    List.Chain' (fun a b => a.buf ≠ b.buf)
      (handed ModeA.uart_callback (List.replicate N .UART_RX_BUF_REQUEST)) ∧
    List.Chain' (fun a b => a.buf ≠ b.buf)
      (handed ModeB.uart_callback (List.replicate N .UART_RX_BUF_REQUEST)) := by
  rw [callback_queue_eq]
  have h1 := run_buf_requests N CbState.init
  have h2 : List.Chain' (fun a b => a.buf ≠ b.buf)
      (handed ModeA.uart_callback (List.replicate N .UART_RX_BUF_REQUEST)) := by
    unfold handed
    exact chain_buf_requests N CbState.init initial_arm rfl
  simp only [CbState.init, if_true] at h1
  exact ⟨h1, h1, h2, h2⟩

/-- C7 (evaluation at the failing input). On buffer-requested, receive-stopped,
buffer-requested the handler first hands over the secondary buffer, then re-arms the primary
buffer without resetting the selector, then answers the next request with the primary
buffer again: the buffer it has just given to the adapter. -/
theorem rx_stopped_breaks_idle_buffer :
    handed ModeA.uart_callback [.UART_RX_BUF_REQUEST, .UART_RX_STOPPED 0, .UART_RX_BUF_REQUEST]
      = [.uart_rx_enable .rx_buffer 64, .uart_rx_buf_rsp .rx_double_buffer 64,
         .uart_rx_enable .rx_buffer 64, .uart_rx_buf_rsp .rx_buffer 64] ∧
    ¬ List.Chain' hands_idle
      (handed ModeA.uart_callback
        [.UART_RX_BUF_REQUEST, .UART_RX_STOPPED 0, .UART_RX_BUF_REQUEST]) ∧
    handed ModeB.uart_callback [.UART_RX_BUF_REQUEST, .UART_RX_STOPPED 0, .UART_RX_BUF_REQUEST]
      = [.uart_rx_enable .rx_buffer 64, .uart_rx_buf_rsp .rx_double_buffer 64,
         .uart_rx_enable .rx_buffer 64, .uart_rx_buf_rsp .rx_buffer 64] := by
  refine ⟨by decide, ?_, by decide⟩
  have h : handed ModeA.uart_callback
      [.UART_RX_BUF_REQUEST, .UART_RX_STOPPED 0, .UART_RX_BUF_REQUEST]
      = [.uart_rx_enable .rx_buffer 64, .uart_rx_buf_rsp .rx_double_buffer 64,
         .uart_rx_enable .rx_buffer 64, .uart_rx_buf_rsp .rx_buffer 64] := by decide
  rw [h]
  simp [List.Chain', hands_idle, RxCall.is_rsp, RxCall.buf]

/-! ## Mode B, the system -/

namespace ModeB


theorem run_inv (calls : Nat → Call) (A : Label → Prop) (P : Sys → Prop)
    (hstep : ∀ s l t, A l → P s → step calls s l = some t → P t) :
    ∀ (ls : List Label) (s t : Sys), (∀ l ∈ ls, A l) → P s → run calls s ls = some t → P t := by
  intro ls
  induction ls with
  | nil =>
    intro s t _ hP h
    simp only [run, Option.some.injEq] at h
    exact h ▸ hP
  | cons l ls ih =>
    intro s t hA hP h
    simp only [run] at h
    cases hs : step calls s l with
    | none => rw [hs] at h; cases h
    | some u =>
      rw [hs] at h
      exact ih u t (fun x hx => hA x (List.mem_cons_of_mem _ hx))
        (hstep s l u (hA l (List.mem_cons_self _ _)) hP hs) h

/-- C4 (counterexample). Two descriptors are queued; the first transmit is accepted and the
worker's 5000 ms wait passes before the adapter raises its completion event. The worker then
pops the second descriptor and stands before `uart_tx` with one transmit outstanding; the
call is made and two transmits are in flight. -/
theorem worker_overlap_after_timeout :
    (run demo_calls Sys.init overlap_labels).map (fun s => (s.worker, s.outstanding))
      = some (.submit ⟨[7, 9], 1, some 1, 1⟩, 1) ∧
    (run demo_calls Sys.init (overlap_labels ++ [.w_submit 0])).map
        (fun s => (s.tx_calls, s.outstanding))
      = some ([⟨[1, 2], 2, 0⟩, ⟨[7, 9], 1, 0⟩], 2) := by
  decide

theorem callback_tx_sem_completion (cb : CbState) (e : EvtType)
    (h : e.is_tx_completion = true) : (uart_callback cb e).1.tx_sem = k_sem_give cb.tx_sem := by
  cases e <;> simp_all [EvtType.is_tx_completion, uart_callback]

theorem callback_tx_sem_other (cb : CbState) (e : EvtType)
    (h : e.is_tx_completion = false) : (uart_callback cb e).1.tx_sem = cb.tx_sem := by
  cases e <;> simp_all [EvtType.is_tx_completion, uart_callback] <;> split <;> rfl

theorem step_single (calls : Nat → Call) (s t : Sys) (l : Label)
    (hl : l ≠ .w_wait_timeout) (hP : Single s) (h : step calls s l = some t) : Single t := by
  unfold Single at hP ⊢
  cases l with
  | w_wait_timeout => exact absurd rfl hl
  | adapter e =>
    simp only [step] at h
    by_cases he : e.is_tx_completion = true
    · have hc := callback_tx_sem_completion s.cb e he
      simp only [he, if_true] at h
      split at h
      · simp only [Option.some.injEq] at h
        subst h
        cases hw : s.worker <;> simp_all [k_sem_give] <;> (try split) <;> omega
      · cases h
    · have he' : e.is_tx_completion = false := by simpa using he
      have hc := callback_tx_sem_other s.cb e he'
      simp only [he', Bool.false_eq_true, if_false, Option.some.injEq] at h
      subst h
      simp only [hc]
      exact hP
  | _ =>
    simp only [step] at h <;> (repeat' split at h) <;>
      simp only [Option.some.injEq, reduceCtorEq] at h <;> subst h <;>
      simp_all <;> omega

theorem init_single : Single Sys.init := by
  simp [Single, Sys.init, CbState.init]

/-- C4 (amended). In every run of the mode B system in which no 5000 ms completion wait of
the worker has timed out, the worker stands before `uart_tx` only when no accepted transmit
awaits its completion event, and at most one transmit is ever outstanding. -/
theorem single_outstanding_without_timeout (calls : Nat → Call) (ls : List Label) (s : Sys)
    (h : run calls Sys.init ls = some s) (hno : Label.w_wait_timeout ∉ ls) :
    (∀ m, s.worker = .submit m → s.outstanding = 0) ∧ s.outstanding ≤ 1 := by
  have hP : Single s :=
    run_inv calls (fun l => l ≠ .w_wait_timeout) Single
      (fun s l t hl hs hst => step_single calls s t l hl hs hst) ls Sys.init s
      (fun l hl heq => hno (heq ▸ hl)) init_single h
  unfold Single at hP
  constructor
  · intro m hm
    rw [hm] at hP
    exact hP.1
  · cases hw : s.worker <;> rw [hw] at hP <;> simp at hP <;> omega

/-- Witness of C4 (amended): the worker has popped the descriptor of call 1 and stands
before `uart_tx`. -/
theorem single_outstanding_without_timeout_witness :
    ∃ s, run demo_calls Sys.init queued_sync_labels = some s ∧
      ((∀ m, s.worker = .submit m → s.outstanding = 0) ∧ s.outstanding ≤ 1) :=
  have h : (run demo_calls Sys.init queued_sync_labels).isSome = true := by decide
  ⟨(run demo_calls Sys.init queued_sync_labels).get h, (Option.some_get h).symm,
    single_outstanding_without_timeout demo_calls queued_sync_labels _
      (Option.some_get h).symm (by decide)⟩

/-- C8 (counterexample). The synchronous call 1 is queued. In the first run the adapter
rejects the worker's `uart_tx` with -5, in the second the worker's completion wait times
out with the transmit still outstanding; in both the worker gives the private semaphore and
call 1 returns 0. -/
theorem sync_caller_gets_success_on_failure :
    (run demo_calls Sys.init
        (queued_sync_labels ++ [.w_submit (-5), .w_tx_failed, .s_wait_ok 1])).map
        (fun s => (s.spc 1, s.tx_calls))
      = some (.done 0, [⟨[7, 9], 1, -5⟩]) ∧
    (run demo_calls Sys.init
        (queued_sync_labels ++ [.w_submit 0, .w_wait_timeout, .w_signal, .s_wait_ok 1])).map
        (fun s => (s.spc 1, s.outstanding))
      = some (.done 0, 1) := by
  decide

theorem give_completion_pos (sems : Nat → Nat) (m : Msg) (i : Nat)
    (hm : m.completion_sem = some i) : 0 < give_completion sems m i := by
  simp [give_completion, hm, k_sem_give]
  split <;> omega

/-- C8 (amended). For a synchronous call `i` that is queued and waits on its private
completion signal: when the adapter rejects the worker's `uart_tx` for its descriptor, and
when the worker's completion wait for it times out, the worker gives the signal all the same
and the call, taking it, returns 0; the call returns non-zero only when its own 10000 ms
wait times out, and then it returns `-EAGAIN`. -/
theorem sync_return_is_own_wait (calls : Nat → Call) (s : Sys) (i : Nat) (m : Msg)
    (hi : s.spc i = .wait) (hm : m.completion_sem = some i) :
    (∀ ret, ret ≠ 0 → s.worker = .submit m →
      ∃ t, run calls s [.w_submit ret, .w_tx_failed, .s_wait_ok i] = some t ∧
        t.spc i = .done 0) ∧
    (s.worker = .wait m → s.cb.tx_sem = 0 →
      ∃ t, run calls s [.w_wait_timeout, .w_signal, .s_wait_ok i] = some t ∧
        t.spc i = .done 0) ∧
    (∀ l t ret, step calls s l = some t → t.spc i = .done ret → ret ≠ 0 →
      l = .s_wait_timeout i ∧ ret = -EAGAIN) := by
  refine ⟨?_, ?_, ?_⟩
  · intro ret hret hw
    simp [run, step, hw, hret, hi, give_completion_pos _ m i hm]
  · intro hw hsem
    simp [run, step, hw, hsem, hi, give_completion_pos _ m i hm]
  · intro l t ret h ht hret
    cases l <;> simp only [step] at h <;> (repeat' split at h) <;>
      simp only [Option.some.injEq, reduceCtorEq] at h <;> subst h <;>
      simp only [] at ht <;>
      first
        | (rw [hi] at ht; cases ht)
        | (simp only [Function.update_apply] at ht
           split at ht
           · rename_i hj; subst hj; simp_all
           · rw [hi] at ht; cases ht)

/-- Witness of C8 (amended): call 1 waits, the worker holds its descriptor, the adapter
answers -5. -/
theorem sync_return_is_own_wait_witness :
    ∃ s, run demo_calls Sys.init queued_sync_labels = some s ∧
      ∃ t, run demo_calls s [.w_submit (-5), .w_tx_failed, .s_wait_ok 1] = some t ∧
        t.spc 1 = .done 0 :=
  have h : (run demo_calls Sys.init queued_sync_labels).isSome = true := by decide
  ⟨(run demo_calls Sys.init queued_sync_labels).get h, (Option.some_get h).symm,
    (sync_return_is_own_wait demo_calls _ 1 ⟨[7, 9], 1, some 1, 1⟩ rfl rfl).1 (-5)
      (by decide) rfl⟩

end ModeB

/-! ## Mode A, the system -/

namespace ModeA


theorem holder_unique (s : Sys) (h : Holder s) (i j : Nat)
    (hi : (s.pc i).holds = true) (hj : (s.pc j).holds = true) : i = j := by
  have a := h i hi
  have b := h j hj
  rw [a] at b
  exact Option.some.inj b

theorem holder_move (s t : Sys) (i : Nat) (v : Pc) (h : Holder s)
    (hpc : t.pc = Function.update s.pc i v)
    (hm : t.uart_resource_mutex = s.uart_resource_mutex)
    (vh : v.holds = true → (s.pc i).holds = true) : Holder t := by
  intro j hj
  rw [hpc] at hj
  rw [hm]
  by_cases hji : j = i
  · subst hji
    rw [Function.update_same] at hj
    exact h j (vh hj)
  · rw [Function.update_noteq hji] at hj
    exact h j hj

theorem holder_acquire (s t : Sys) (i : Nat) (v : Pc) (h : Holder s)
    (hpc : t.pc = Function.update s.pc i v)
    (hfree : s.uart_resource_mutex = none)
    (hm : t.uart_resource_mutex = some i) : Holder t := by
  intro j hj
  rw [hpc] at hj
  by_cases hji : j = i
  · subst hji
    exact hm
  · rw [Function.update_noteq hji] at hj
    have := h j hj
    rw [hfree] at this
    cases this

theorem holder_release (s t : Sys) (i : Nat) (v : Pc) (h : Holder s)
    (hpc : t.pc = Function.update s.pc i v)
    (hi : (s.pc i).holds = true)
    (vh : v.holds = false) : Holder t := by
  intro j hj
  rw [hpc] at hj
  by_cases hji : j = i
  · subst hji
    rw [Function.update_same, vh] at hj
    cases hj
  · rw [Function.update_noteq hji] at hj
    exact absurd (holder_unique s h j i hj hi) hji

theorem flags_move (s t : Sys) (i : Nat) (v : Pc) (h : Flags s)
    (hpc : t.pc = Function.update s.pc i v)
    (hb : t.uart_tx_busy = s.uart_tx_busy)
    (hs : t.cb.tx_sem = s.cb.tx_sem)
    (ho : t.outstanding = s.outstanding)
    (vo : v.owns = true → (s.pc i).owns = true)
    (vq : v.quiet = true → (s.pc i).quiet = true)
    (vm : v = .mark → s.uart_tx_busy = false) : Flags t := by
  have key : ∀ j, (t.pc j).owns = true → (s.pc j).owns = true := by
    intro j hj
    rw [hpc] at hj
    by_cases hji : j = i
    · subst hji; rw [Function.update_same] at hj; exact vo hj
    · rw [Function.update_noteq hji] at hj; exact hj
  refine ⟨?_, ?_, ?_, ?_, ?_, ?_⟩
  · intro a b ha hb'
    exact h.owner a b (key a ha) (key b hb')
  · intro j hj
    rw [hb]
    exact h.busy j (key j hj)
  · intro j hj
    rw [hb]
    rw [hpc] at hj
    by_cases hji : j = i
    · subst hji; rw [Function.update_same] at hj; exact vm hj
    · rw [Function.update_noteq hji] at hj; exact h.marked j hj
  · rw [hb, hs, ho]; exact h.idle
  · rw [hs, ho]; exact h.one
  · intro j hj
    rw [hs, ho]
    rw [hpc] at hj
    by_cases hji : j = i
    · subst hji; rw [Function.update_same] at hj; exact h.quiet j (vq hj)
    · rw [Function.update_noteq hji] at hj; exact h.quiet j hj

/-- Line 129: the flag is found clear and set. -/
theorem flags_mark (s t : Sys) (i : Nat) (hh : Holder s) (h : Flags s)
    (hi : s.pc i = .mark)
    (hpc : t.pc = Function.update s.pc i .copy)
    (hb : t.uart_tx_busy = true)
    (hs : t.cb.tx_sem = s.cb.tx_sem)
    (ho : t.outstanding = s.outstanding) : Flags t := by
  have hclear := h.marked i hi
  have hidle := h.idle hclear
  have nobody : ∀ j, (s.pc j).owns = true → False := by
    intro j hj
    have := h.busy j hj
    rw [hclear] at this
    cases this
  have key : ∀ j, (t.pc j).owns = true → j = i := by
    intro j hj
    rw [hpc] at hj
    by_cases hji : j = i
    · exact hji
    · rw [Function.update_noteq hji] at hj; exact (nobody j hj).elim
  refine ⟨?_, ?_, ?_, ?_, ?_, ?_⟩
  · intro a b ha hb'
    rw [key a ha, key b hb']
  · intro j _
    exact hb
  · intro j hj
    rw [hpc] at hj
    by_cases hji : j = i
    · subst hji; rw [Function.update_same] at hj; cases hj
    · rw [Function.update_noteq hji] at hj
      have hjh : (s.pc j).holds = true := by rw [hj]; rfl
      have hih : (s.pc i).holds = true := by rw [hi]; rfl
      exact absurd (holder_unique s hh j i hjh hih) hji
  · intro hb'
    rw [hb] at hb'
    cases hb'
  · rw [hs, ho]; exact h.one
  · intro j _
    rw [hs, ho]
    exact hidle

/-- Lines 137 and 154: the owner of the flag clears it. -/
theorem flags_clear (s t : Sys) (i : Nat) (v : Pc) (h : Flags s)
    (hio : (s.pc i).owns = true) (hiq : (s.pc i).quiet = true)
    (hpc : t.pc = Function.update s.pc i v)
    (vo : v.owns = false)
    (hb : t.uart_tx_busy = false)
    (hs : t.cb.tx_sem = s.cb.tx_sem)
    (ho : t.outstanding = s.outstanding) : Flags t := by
  have hidle := h.quiet i hiq
  have key : ∀ j, (t.pc j).owns = true → False := by
    intro j hj
    rw [hpc] at hj
    by_cases hji : j = i
    · subst hji; rw [Function.update_same, vo] at hj; cases hj
    · rw [Function.update_noteq hji] at hj
      exact hji (h.owner j i hj hio)
  refine ⟨?_, ?_, ?_, ?_, ?_, ?_⟩
  · intro a b ha _
    exact (key a ha).elim
  · intro j hj
    exact (key j hj).elim
  · intro j _
    exact hb
  · intro _
    rw [hs, ho]; exact hidle
  · rw [hs, ho]; exact h.one
  · intro j _
    rw [hs, ho]
    exact hidle

/-- Line 134 with the adapter accepting: one transmit is outstanding from now on. -/
theorem flags_accept (s t : Sys) (i : Nat) (h : Flags s)
    (hi : s.pc i = .submit)
    (hpc : t.pc = Function.update s.pc i .unlock)
    (hb : t.uart_tx_busy = s.uart_tx_busy)
    (hs : t.cb.tx_sem = s.cb.tx_sem)
    (ho : t.outstanding = s.outstanding + 1) : Flags t := by
  have hio : (s.pc i).owns = true := by rw [hi]; rfl
  have hiq : (s.pc i).quiet = true := by rw [hi]; rfl
  have hidle := h.quiet i hiq
  have hbusy := h.busy i hio
  have key : ∀ j, (t.pc j).owns = true → j = i := by
    intro j hj
    rw [hpc] at hj
    by_cases hji : j = i
    · exact hji
    · rw [Function.update_noteq hji] at hj; exact h.owner j i hj hio
  refine ⟨?_, ?_, ?_, ?_, ?_, ?_⟩
  · intro a b ha hb'
    rw [key a ha, key b hb']
  · intro j _
    rw [hb]; exact hbusy
  · intro j hj
    rw [hpc] at hj
    by_cases hji : j = i
    · subst hji; rw [Function.update_same] at hj; cases hj
    · rw [Function.update_noteq hji] at hj
      have := h.marked j hj
      rw [hbusy] at this
      cases this
  · intro hb'
    rw [hb, hbusy] at hb'
    cases hb'
  · rw [hs, ho, hidle.1, hidle.2]
  · intro j hj
    rw [hpc] at hj
    by_cases hji : j = i
    · subst hji; rw [Function.update_same] at hj; cases hj
    · rw [Function.update_noteq hji] at hj
      have hjo : (s.pc j).owns = true := by
        revert hj; cases s.pc j <;> simp [Pc.quiet, Pc.owns]
      exact absurd (h.owner j i hjo hio) hji

/-- Line 146 with the semaphore given: the completion event has been raised. -/
theorem flags_taken (s t : Sys) (i : Nat) (h : Flags s)
    (hi : s.pc i = .wait) (hpos : 0 < s.cb.tx_sem)
    (hpc : t.pc = Function.update s.pc i .relock)
    (hb : t.uart_tx_busy = s.uart_tx_busy)
    (hs : t.cb.tx_sem = s.cb.tx_sem - 1)
    (ho : t.outstanding = s.outstanding) : Flags t := by
  have hio : (s.pc i).owns = true := by rw [hi]; rfl
  have hbusy := h.busy i hio
  have hone := h.one
  have key : ∀ j, (t.pc j).owns = true → (s.pc j).owns = true := by
    intro j hj
    rw [hpc] at hj
    by_cases hji : j = i
    · subst hji; exact hio
    · rw [Function.update_noteq hji] at hj; exact hj
  refine ⟨?_, ?_, ?_, ?_, ?_, ?_⟩
  · intro a b ha hb'
    exact h.owner a b (key a ha) (key b hb')
  · intro j _
    rw [hb]; exact hbusy
  · intro j hj
    rw [hpc] at hj
    by_cases hji : j = i
    · subst hji; rw [Function.update_same] at hj; cases hj
    · rw [Function.update_noteq hji] at hj
      have := h.marked j hj
      rw [hbusy] at this
      cases this
  · intro hb'
    rw [hb, hbusy] at hb'
    cases hb'
  · rw [hs, ho]; omega
  · intro j _
    rw [hs, ho]
    omega

theorem a_callback_tx_sem_completion (cb : CbState) (e : EvtType)
    (h : e.is_tx_completion = true) : (uart_callback cb e).1.tx_sem = k_sem_give cb.tx_sem := by
  cases e <;> simp_all [EvtType.is_tx_completion, uart_callback]

theorem a_callback_tx_sem_other (cb : CbState) (e : EvtType)
    (h : e.is_tx_completion = false) : (uart_callback cb e).1.tx_sem = cb.tx_sem := by
  cases e <;> simp_all [EvtType.is_tx_completion, uart_callback] <;> split <;> rfl

theorem a_step_inv (calls : Nat → Call) (s t : Sys) (l : Label)
    (hP : Inv s) (h : step calls s l = some t) : Inv t := by
  obtain ⟨hh, hf⟩ := hP
  cases l with
  | t_entry i =>
    simp only [step] at h
    split at h
    · split at h <;> (simp only [Option.some.injEq] at h; subst h) <;>
        exact ⟨holder_move s _ i _ hh rfl rfl (by simp [Pc.holds]),
          flags_move s _ i _ hf rfl rfl rfl rfl (by simp [Pc.owns]) (by simp [Pc.quiet])
            (by simp)⟩
    · cases h
  | t_lock_ok i =>
    simp only [step] at h
    split at h
    · rename_i hc
      simp only [Option.some.injEq] at h; subst h
      exact ⟨holder_acquire s _ i _ hh rfl hc.2 rfl,
        flags_move s _ i _ hf rfl rfl rfl rfl (by simp [Pc.owns]) (by simp [Pc.quiet])
          (by simp)⟩
    · cases h
  | t_lock_timeout i =>
    simp only [step] at h
    split at h
    · simp only [Option.some.injEq] at h; subst h
      exact ⟨holder_move s _ i _ hh rfl rfl (by simp [Pc.holds]),
        flags_move s _ i _ hf rfl rfl rfl rfl (by simp [Pc.owns]) (by simp [Pc.quiet])
          (by simp)⟩
    · cases h
  | t_check i =>
    simp only [step] at h
    split at h
    · rename_i hi
      simp only [Option.some.injEq] at h; subst h
      exact ⟨holder_move s _ i _ hh rfl rfl (by simp [Pc.holds, hi]),
        flags_move s _ i _ hf rfl rfl rfl rfl (by split <;> simp [Pc.owns])
          (by split <;> simp [Pc.quiet]) (by split <;> simp_all)⟩
    · cases h
  | t_busy_unlock i =>
    simp only [step] at h
    split at h
    · rename_i hi
      simp only [Option.some.injEq] at h; subst h
      exact ⟨holder_release s _ i _ hh rfl (by simp [Pc.holds, hi]) rfl,
        flags_move s _ i _ hf rfl rfl rfl rfl (by simp [Pc.owns]) (by simp [Pc.quiet])
          (by simp)⟩
    · cases h
  | t_mark i =>
    simp only [step] at h
    split at h
    · rename_i hi
      simp only [Option.some.injEq] at h; subst h
      exact ⟨holder_move s _ i _ hh rfl rfl (by simp [Pc.holds, hi]),
        flags_mark s _ i hh hf hi rfl rfl rfl rfl⟩
    · cases h
  | t_copy i =>
    simp only [step] at h
    split at h
    · rename_i hi
      simp only [Option.some.injEq] at h; subst h
      exact ⟨holder_move s _ i _ hh rfl rfl (by simp [Pc.holds, hi]),
        flags_move s _ i _ hf rfl rfl rfl rfl (by simp [Pc.owns, hi]) (by simp [Pc.quiet, hi])
          (by simp)⟩
    · cases h
  | t_submit i ret =>
    simp only [step] at h
    split at h
    · rename_i hi
      split at h <;> (simp only [Option.some.injEq] at h; subst h)
      · exact ⟨holder_move s _ i _ hh rfl rfl (by simp [Pc.holds, hi]),
          flags_move s _ i _ hf rfl rfl rfl rfl (by simp [Pc.owns, hi])
            (by simp [Pc.quiet, hi]) (by simp)⟩
      · exact ⟨holder_move s _ i _ hh rfl rfl (by simp [Pc.holds, hi]),
          flags_accept s _ i hf hi rfl rfl rfl rfl⟩
    · cases h
  | t_fail_clear i =>
    simp only [step] at h
    split at h
    · rename_i ret hi
      simp only [Option.some.injEq] at h; subst h
      exact ⟨holder_move s _ i _ hh rfl rfl (by simp [Pc.holds, hi]),
        flags_clear s _ i _ hf (by simp [Pc.owns, hi]) (by simp [Pc.quiet, hi]) rfl rfl rfl
          rfl rfl⟩
    · cases h
  | t_fail_unlock i =>
    simp only [step] at h
    split at h
    · rename_i ret hi
      simp only [Option.some.injEq] at h; subst h
      exact ⟨holder_release s _ i _ hh rfl (by simp [Pc.holds, hi]) rfl,
        flags_move s _ i _ hf rfl rfl rfl rfl (by simp [Pc.owns]) (by simp [Pc.quiet])
          (by simp)⟩
    · cases h
  | t_unlock i =>
    simp only [step] at h
    split at h
    · rename_i hi
      simp only [Option.some.injEq] at h; subst h
      exact ⟨holder_release s _ i _ hh rfl (by simp [Pc.holds, hi]) rfl,
        flags_move s _ i _ hf rfl rfl rfl rfl (by simp [Pc.owns, hi]) (by simp [Pc.quiet])
          (by simp)⟩
    · cases h
  | t_wait_ok i =>
    simp only [step] at h
    split at h
    · rename_i hc
      simp only [Option.some.injEq] at h; subst h
      exact ⟨holder_move s _ i _ hh rfl rfl (by simp [Pc.holds]),
        flags_taken s _ i hf hc.1 hc.2 rfl rfl rfl rfl⟩
    · cases h
  | t_wait_timeout i =>
    simp only [step] at h
    split at h
    · simp only [Option.some.injEq] at h; subst h
      exact ⟨holder_move s _ i _ hh rfl rfl (by simp [Pc.holds]),
        flags_move s _ i _ hf rfl rfl rfl rfl (by simp [Pc.owns]) (by simp [Pc.quiet])
          (by simp)⟩
    · cases h
  | t_relock i =>
    simp only [step] at h
    split at h
    · rename_i hc
      simp only [Option.some.injEq] at h; subst h
      exact ⟨holder_acquire s _ i _ hh rfl hc.2 rfl,
        flags_move s _ i _ hf rfl rfl rfl rfl (by simp [Pc.owns, hc.1])
          (by simp [Pc.quiet, hc.1]) (by simp)⟩
    · cases h
  | t_clear i =>
    simp only [step] at h
    split at h
    · rename_i hi
      simp only [Option.some.injEq] at h; subst h
      exact ⟨holder_move s _ i _ hh rfl rfl (by simp [Pc.holds, hi]),
        flags_clear s _ i _ hf (by simp [Pc.owns, hi]) (by simp [Pc.quiet, hi]) rfl rfl rfl
          rfl rfl⟩
    · cases h
  | t_reunlock i =>
    simp only [step] at h
    split at h
    · rename_i hi
      simp only [Option.some.injEq] at h; subst h
      exact ⟨holder_release s _ i _ hh rfl (by simp [Pc.holds, hi]) rfl,
        flags_move s _ i _ hf rfl rfl rfl rfl (by simp [Pc.owns]) (by simp [Pc.quiet])
          (by simp)⟩
    · cases h
  | adapter e =>
    simp only [step] at h
    by_cases he : e.is_tx_completion = true
    · have hc := a_callback_tx_sem_completion s.cb e he
      simp only [he, if_true] at h
      split at h
      · rename_i hpos
        simp only [Option.some.injEq] at h
        subst h
        have hb : s.uart_tx_busy = true := by
          cases hb : s.uart_tx_busy
          · have := (hf.idle hb).1; omega
          · rfl
        have hone := hf.one
        refine ⟨hh, hf.owner, hf.busy, hf.marked, ?_, ?_, ?_⟩
        · intro hb'; simp only at hb'; rw [hb] at hb'; cases hb'
        · simp only [hc, k_sem_give]; split <;> omega
        · intro i hi
          have := (hf.quiet i hi).1
          omega
      · cases h
    · have he' : e.is_tx_completion = false := by simpa using he
      have hc := a_callback_tx_sem_other s.cb e he'
      simp only [he', Bool.false_eq_true, if_false, Option.some.injEq] at h
      subst h
      exact ⟨hh, hf.owner, hf.busy, hf.marked, by simpa only [hc] using hf.idle,
        by simpa only [hc] using hf.one, by simpa only [hc] using hf.quiet⟩

theorem a_run_inv (calls : Nat → Call) (P : Sys → Prop)
    (hstep : ∀ s l t, P s → step calls s l = some t → P t) :
    ∀ (ls : List Label) (s t : Sys), P s → run calls s ls = some t → P t := by
  intro ls
  induction ls with
  | nil =>
    intro s t hP h
    simp only [run, Option.some.injEq] at h
    exact h ▸ hP
  | cons l ls ih =>
    intro s t hP h
    simp only [run] at h
    cases hs : step calls s l with
    | none => rw [hs] at h; cases h
    | some u =>
      rw [hs] at h
      exact ih u t (hstep s l u hP hs) h

theorem a_init_inv : Inv Sys.init := by
  refine ⟨?_, ?_, ?_, ?_, ?_, ?_, ?_⟩ <;>
    simp [Holder, Sys.init, Pc.holds, Pc.owns, Pc.quiet, CbState.init]

theorem buffer_written_only_by_copy (calls : Nat → Call) (s t : Sys) (l : Label)
    (h : step calls s l = some t) (hne : t.tx_buffer ≠ s.tx_buffer) :
    ∃ i, l = .t_copy i ∧ s.pc i = .copy := by
  cases l <;> simp only [step] at h <;> (repeat' split at h) <;>
    simp only [Option.some.injEq, reduceCtorEq] at h <;> subst h <;>
    first
      | exact absurd rfl hne
      | exact ⟨_, rfl, by assumption⟩

/-- C5. In every state the mode A system reaches, by any interleaving of any number of calls
and of adapter completion events (one per accepted submission): (1) a call sets the busy
flag (line 129) only with the flag clear, nothing outstanding and the mutex its own; (2) a
call reaches `uart_tx` (line 134) only with no accepted transmit awaiting its completion
event, holding the mutex, and with no other call between setting and clearing the flag, and
after the call at most one transmit is outstanding; (3) an action that changes `tx_buffer`
happens only with nothing outstanding; (4) at most one transmit is ever outstanding. -/
theorem single_outstanding (calls : Nat → Call) (ls : List Label) (s : Sys)
    (h : run calls Sys.init ls = some s) :
    (∀ i t, step calls s (.t_mark i) = some t →
      s.uart_tx_busy = false ∧ s.outstanding = 0 ∧ s.uart_resource_mutex = some i) ∧
    (∀ i ret t, step calls s (.t_submit i ret) = some t →
      s.outstanding = 0 ∧ s.uart_resource_mutex = some i ∧
      (∀ j, j ≠ i → (s.pc j).owns = false) ∧ t.outstanding ≤ 1) ∧
    (∀ l t, step calls s l = some t → t.tx_buffer ≠ s.tx_buffer → s.outstanding = 0) ∧
    s.outstanding ≤ 1 := by
  obtain ⟨hh, hf⟩ : Inv s :=
    a_run_inv calls Inv (fun s l t hs hst => a_step_inv calls s t l hs hst) ls Sys.init s
      a_init_inv h
  have others : ∀ i j, (s.pc i).owns = true → j ≠ i → (s.pc j).owns = false := by
    intro i j hi hji
    cases hj : (s.pc j).owns
    · rfl
    · exact absurd (hf.owner j i hj hi) hji
  refine ⟨?_, ?_, ?_, ?_⟩
  · intro i t ht
    simp only [step] at ht
    split at ht
    · rename_i hi
      have hb := hf.marked i hi
      exact ⟨hb, (hf.idle hb).1, hh i (by rw [hi]; rfl)⟩
    · cases ht
  · intro i ret t ht
    simp only [step] at ht
    split at ht
    · rename_i hi
      have hq := hf.quiet i (by rw [hi]; rfl)
      refine ⟨hq.1, hh i (by rw [hi]; rfl), fun j => others i j (by rw [hi]; rfl), ?_⟩
      split at ht <;> (simp only [Option.some.injEq] at ht; subst ht) <;> simp only [] <;>
        omega
    · cases ht
  · intro l t ht hne
    obtain ⟨i, _, hi⟩ := buffer_written_only_by_copy calls s t l ht hne
    exact (hf.quiet i (by rw [hi]; rfl)).1
  · have := hf.one
    omega

/-- Witness of C5: call 0 stands before `uart_tx`. -/
theorem single_outstanding_witness :
    ∃ s, run guard_calls Sys.init guard_labels = some s ∧ s.pc 0 = .submit ∧
      ((∀ i t, step guard_calls s (.t_mark i) = some t →
        s.uart_tx_busy = false ∧ s.outstanding = 0 ∧ s.uart_resource_mutex = some i) ∧
      (∀ i ret t, step guard_calls s (.t_submit i ret) = some t →
        s.outstanding = 0 ∧ s.uart_resource_mutex = some i ∧
        (∀ j, j ≠ i → (s.pc j).owns = false) ∧ t.outstanding ≤ 1) ∧
      (∀ l t, step guard_calls s l = some t → t.tx_buffer ≠ s.tx_buffer → s.outstanding = 0) ∧
      s.outstanding ≤ 1) :=
  have h : (run guard_calls Sys.init guard_labels).isSome = true := by decide
  ⟨(run guard_calls Sys.init guard_labels).get h, (Option.some_get h).symm, rfl,
    single_outstanding guard_calls guard_labels _ (Option.some_get h).symm⟩

theorem stuck_move (s t : Sys) (i : Nat) (v : Pc) (h : Stuck s)
    (hpc : t.pc = Function.update s.pc i v)
    (hb : t.uart_tx_busy = s.uart_tx_busy)
    (vo : v.owns = false) (vm : v ≠ .mark) : Stuck t := by
  refine ⟨by rw [hb]; exact h.1, ?_⟩
  intro j
  rw [hpc]
  by_cases hji : j = i
  · subst hji; rw [Function.update_same]; exact ⟨vo, vm⟩
  · rw [Function.update_noteq hji]; exact h.2 j

theorem stuck_not (s : Sys) (h : Stuck s) (i : Nat) (p : Pc) (hi : s.pc i = p)
    (hp : p.owns = true ∨ p = .mark) : False := by
  have := h.2 i
  rw [hi] at this
  rcases hp with hp | hp
  · rw [hp] at this; exact absurd this.1 (by simp)
  · exact this.2 hp

theorem step_stuck (calls : Nat → Call) (s t : Sys) (l : Label)
    (hP : Stuck s) (h : step calls s l = some t) :
    Stuck t ∧ t.tx_calls = s.tx_calls := by
  cases l <;> simp only [step] at h <;> (repeat' split at h) <;>
    simp only [Option.some.injEq, reduceCtorEq] at h <;> subst h <;>
    first
      | exact ⟨hP, rfl⟩
      | (refine ⟨stuck_move s _ _ _ hP rfl rfl ?_ ?_, rfl⟩ <;> simp [hP.1, Pc.owns]; done)
      | (exfalso; exact ‹¬s.uart_tx_busy = true› hP.1)
      | (exfalso; refine stuck_not s hP _ _ (by assumption) ?_; simp [Pc.owns])
      | (exfalso; refine stuck_not s hP _ _ (And.left (by assumption)) ?_; simp [Pc.owns])

theorem step_refused (calls : Nat → Call) (s t : Sys) (l : Label) (j : Nat)
    (hS : Stuck s) (hR : Refused s j) (h : step calls s l = some t) : Refused t j := by
  unfold Refused at hR ⊢
  have hb := hS.1
  cases l <;> simp only [step] at h <;> (repeat' split at h) <;>
    simp only [Option.some.injEq, reduceCtorEq] at h <;> subst h <;>
    simp only [Function.update_apply] <;>
    first
      | exact hR
      | (split
         · rename_i hj; subst hj; simp_all
         · exact hR)

theorem timeout_stuck (calls : Nat → Call) (s t : Sys) (i : Nat) (hI : Inv s)
    (ht : step calls s (.t_wait_timeout i) = some t) :
    t.pc i = .done (-EAGAIN) ∧ Stuck t := by
  obtain ⟨_, hf⟩ := hI
  simp only [step] at ht
  split at ht
  · rename_i hc
    simp only [Option.some.injEq] at ht
    subst ht
    have hio : (s.pc i).owns = true := by rw [hc.1]; rfl
    refine ⟨by simp, hf.busy i hio, ?_⟩
    intro j
    simp only [Function.update_apply]
    split
    · simp [Pc.owns]
    · rename_i hji
      constructor
      · cases hj : (s.pc j).owns
        · rfl
        · exact absurd (hf.owner j i hj hio) hji
      · intro hm
        have := hf.marked j hm
        rw [hf.busy i hio] at this
        cases this
  · cases ht

/-- C12. When a call of `uart_send_dma_protected` leaves its completion wait by the timeout
(lines 146-150) in any reachable state of the mode A system, it returns `-EAGAIN` with the
busy flag still set; and in every state reached afterwards, whatever the interleaving and
whether or not the late completion event arrives, the flag is still set, no `uart_tx` call
has been added and none is enabled, and every call that has passed the length check and
taken the lock does return, and returns `-EBUSY`. -/
theorem busy_stuck_after_timeout (calls : Nat → Call) (ls : List Label) (s t : Sys) (i : Nat)
    (h : run calls Sys.init ls = some s)
    (ht : step calls s (.t_wait_timeout i) = some t) :
    t.pc i = .done (-EAGAIN) ∧ t.uart_tx_busy = true ∧
    ∀ ls1 u, run calls t ls1 = some u →
      u.uart_tx_busy = true ∧ u.tx_calls = t.tx_calls ∧
      (∀ j ret, step calls u (.t_submit j ret) = none) ∧
      (∀ j, u.pc j = .check →
        (∃ w, run calls u [.t_check j, .t_busy_unlock j] = some w ∧
          w.pc j = .done (-EBUSY)) ∧
        ∀ ls2 w ret, run calls u ls2 = some w → w.pc j = .done ret → ret = -EBUSY) := by
  have hI : Inv s :=
    a_run_inv calls Inv (fun s l t hs hst => a_step_inv calls s t l hs hst) ls Sys.init s
      a_init_inv h
  obtain ⟨hdone, hstuck⟩ := timeout_stuck calls s t i hI ht
  refine ⟨hdone, hstuck.1, ?_⟩
  intro ls1 u hu
  have hU : Stuck u ∧ u.tx_calls = t.tx_calls :=
    a_run_inv calls (fun x => Stuck x ∧ x.tx_calls = t.tx_calls)
      (fun x l y hx hxy =>
        ⟨(step_stuck calls x y l hx.1 hxy).1, (step_stuck calls x y l hx.1 hxy).2.trans hx.2⟩)
      ls1 t u ⟨hstuck, rfl⟩ hu
  refine ⟨hU.1.1, hU.2, ?_, ?_⟩
  · intro j ret
    simp only [step]
    split
    · rename_i hj
      exact (stuck_not u hU.1 j _ hj (Or.inl rfl)).elim
    · rfl
  · intro j hj
    constructor
    · simp [run, step, hj, hU.1.1]
    · intro ls2 w ret hw hret
      have hW : Stuck w ∧ Refused w j :=
        a_run_inv calls (fun x => Stuck x ∧ Refused x j)
          (fun x l y hx hxy =>
            ⟨(step_stuck calls x y l hx.1 hxy).1, step_refused calls x y l j hx.1 hx.2 hxy⟩)
          ls2 u w ⟨hU.1, Or.inl hj⟩ hw
      rcases hW.2 with h1 | h1 | h1
      · rw [h1] at hret; cases hret
      · rw [h1] at hret; cases hret
      · rw [h1] at hret
        exact (Pc.done.inj hret).symm

/-- Witness of C12: call 0 times out in its completion wait; the completion event arrives
late and call 1 takes the lock. -/
theorem busy_stuck_after_timeout_witness :
    ∃ s t u, run guard_calls Sys.init submitted_labels = some s ∧
      step guard_calls s (.t_wait_timeout 0) = some t ∧
      run guard_calls t late_labels = some u ∧
      (t.pc 0 = .done (-EAGAIN) ∧ t.uart_tx_busy = true) ∧
      (u.uart_tx_busy = true ∧ u.tx_calls = t.tx_calls ∧
        (∀ j ret, step guard_calls u (.t_submit j ret) = none) ∧
        (∀ j, u.pc j = .check →
          (∃ w, run guard_calls u [.t_check j, .t_busy_unlock j] = some w ∧
            w.pc j = .done (-EBUSY)) ∧
          ∀ ls2 w ret, run guard_calls u ls2 = some w → w.pc j = .done ret → ret = -EBUSY)) ∧
      u.pc 1 = .check :=
  have h1 : (run guard_calls Sys.init submitted_labels).isSome = true := by decide
  have h2 : (step guard_calls ((run guard_calls Sys.init submitted_labels).get h1)
      (.t_wait_timeout 0)).isSome = true := rfl
  have h3 : (run guard_calls ((step guard_calls
      ((run guard_calls Sys.init submitted_labels).get h1)
      (.t_wait_timeout 0)).get h2) late_labels).isSome = true := rfl
  have key := busy_stuck_after_timeout guard_calls submitted_labels _ _ 0
    (Option.some_get h1).symm (Option.some_get h2).symm
  ⟨_, _, _, (Option.some_get h1).symm, (Option.some_get h2).symm, (Option.some_get h3).symm,
    ⟨key.1, key.2.1⟩, key.2.2 late_labels _ (Option.some_get h3).symm, rfl⟩

/-! ## Mode A under the priority-inheriting lock -/

theorem step_frame (calls : Nat → Call) (s t : Sys) (l : Label)
    (h : step calls s l = some t) (j : Nat) (hj : l.task ≠ some j) : t.pc j = s.pc j := by
  cases l <;> simp only [step] at h <;> (repeat' split at h) <;>
    simp only [Option.some.injEq, reduceCtorEq] at h <;> subst h <;>
    first
      | rfl
      | (simp only [Label.task, ne_eq, Option.some.injEq] at hj
         exact Function.update_noteq (Ne.symm hj) _ _)

theorem step_mutex (calls : Nat → Call) (s t : Sys) (l : Label)
    (h : step calls s l = some t) :
    (l.acquires = true → s.uart_resource_mutex = none ∧ t.uart_resource_mutex = l.task) ∧
    (l.releases = true → ∃ i, l.task = some i ∧ (s.pc i).holds = true ∧
      t.uart_resource_mutex = k_mutex_unlock s.uart_resource_mutex i) ∧
    (l.acquires = false → l.releases = false →
      t.uart_resource_mutex = s.uart_resource_mutex) := by
  cases l <;> simp only [step] at h <;> (repeat' split at h) <;>
    simp only [Option.some.injEq, reduceCtorEq] at h <;> subst h <;>
    simp_all [Label.acquires, Label.releases, Label.task, Pc.holds]

theorem step_timeout_src (calls : Nat → Call) (s t : Sys) (l : Label) (i : Nat)
    (h : step calls s l = some t) (hl : l.is_timeout = true) (hi : l.task = some i) :
    s.pc i = .lock ∨ s.pc i = .wait := by
  cases l <;> simp only [Label.is_timeout, Bool.false_eq_true] at hl <;>
    simp only [step] at h <;> (repeat' split at h) <;>
    simp only [Option.some.injEq, reduceCtorEq] at h <;>
    simp only [Label.task, Option.some.injEq] at hi <;> subst hi <;> simp_all

theorem step_lock_src (calls : Nat → Call) (s t : Sys) (l : Label) (i : Nat)
    (h : step calls s l = some t) (hi : l.task = some i)
    (hpc : s.pc i = .lock ∨ s.pc i = .relock) :
    l.acquires = true ∨ l = .t_lock_timeout i := by
  cases l <;> simp only [step] at h <;> (repeat' split at h) <;>
    simp only [Option.some.injEq, reduceCtorEq] at h <;>
    simp only [Label.task, Option.some.injEq, reduceCtorEq] at hi <;> subst hi <;>
    simp_all [Label.acquires]

theorem unlock_some (m : Option Nat) (i k : Nat) (h : k_mutex_unlock m i = some k) :
    m = some k ∧ k ≠ i := by
  unfold k_mutex_unlock at h
  split at h
  · cases h
  · rename_i hne
    refine ⟨h, ?_⟩
    intro hki
    subst hki
    exact hne h

theorem step_locked (calls : Nat → Call) (s t : Sys) (l : Label)
    (hL : ∀ k, s.uart_resource_mutex = some k → (s.pc k).holds = true)
    (h : step calls s l = some t) :
    ∀ k, t.uart_resource_mutex = some k → (t.pc k).holds = true := by
  cases l <;> simp only [step] at h <;> (repeat' split at h) <;>
    simp only [Option.some.injEq, reduceCtorEq] at h <;> subst h <;>
    intro k hk <;> simp only [] at hk ⊢ <;>
    first
      | exact hL k hk
      | (have hu := unlock_some _ _ _ hk
         rw [Function.update_noteq hu.2]
         exact hL k hu.1)
      | (simp only [Function.update_apply]
         split
         · first
            | rfl
            | (rename_i hki; subst hki; have := hL _ hk; simp_all [Pc.holds])
         · first
            | exact hL k hk
            | (rename_i hki; simp only [Option.some.injEq] at hk; exact absurd hk.symm hki))

theorem step_mutex_old (calls : Nat → Call) (s t : Sys) (l : Label) (k : Nat)
    (h : step calls s l = some t) (hl : l.acquires = false)
    (hk : t.uart_resource_mutex = some k) : s.uart_resource_mutex = some k := by
  obtain ⟨_, h2, h3⟩ := step_mutex calls s t l h
  cases hr : l.releases
  · rw [← h3 hl hr]; exact hk
  · obtain ⟨i, _, _, hi⟩ := h2 hr
    rw [hi] at hk
    exact (unlock_some _ _ _ hk).1

theorem ready_awake (s : Sched) (i : Nat) (h : ready s i = true) : s.sleeping i = false := by
  unfold ready at h
  cases hs : s.sleeping i
  · rfl
  · rw [hs] at h; simp at h

theorem grantable_le (n : Nat) (prio : Nat → Int) (s : Sched) (i j : Nat)
    (h : grantable n prio s i = true) (hj : j < n) (hw : s.waiting j = true) :
    prio j ≤ prio i := by
  unfold grantable at h
  rw [List.all_eq_true] at h
  have := h j (List.mem_range.mpr hj)
  simpa [hw] using this

theorem top_le (n : Nat) (prio : Nat → Int) (s : Sched) (i j : Nat)
    (h : top n prio s i = true) (hj : j < n) (hr : ready s j = true) :
    eff prio s j ≤ eff prio s i := by
  unfold top at h
  rw [List.all_eq_true] at h
  have := h j (List.mem_range.mpr hj)
  simpa [hr] using this

theorem sinv_act (n : Nat) (prio : Nat → Int) (calls : Nat → Call) (s : Sched) (u : Sys)
    (l : Label) (i : Nat) (hI : SInv n prio s) (hu : step calls s.sys l = some u)
    (hi : l.task = some i) (hn : i < n) (hr : ready s i = true ∨ l.is_timeout = true)
    (w : Nat → Bool) (b : Int)
    (hw : ∀ j, j ≠ i → w j = s.waiting j)
    (hwi : w i = true → s.waiting i = true ∧ l.acquires = false ∧ l ≠ .t_lock_timeout i)
    (hb : l.acquires = true →
      b = prio i ∧ ∀ j, j < n → s.waiting j = true → prio j ≤ prio i)
    (hb0 : l.acquires = false → b = s.boosted) :
    SInv n prio { sys := u, waiting := w, boosted := b, sleeping := s.sleeping } := by
  have frame : ∀ j, j ≠ i → u.pc j = s.sys.pc j := by
    intro j hj
    apply step_frame calls s.sys u l hu j
    rw [hi]
    intro heq
    exact hj (Option.some.inj heq).symm
  have notq : w i = true → False := by
    intro hwt
    obtain ⟨h1, h2, h3⟩ := hwi hwt
    rcases step_lock_src calls s.sys u l i hu hi (hI.queued i h1).1 with h4 | h4
    · rw [h2] at h4; cases h4
    · exact h3 h4
  refine ⟨a_step_inv calls s.sys u l hI.inv hu, ?_, ?_, ?_, ?_⟩
  · intro k hk
    refine ⟨step_locked calls s.sys u l (fun k hk => (hI.locked k hk).1) hu k hk, ?_⟩
    cases ha : l.acquires
    · exact (hI.locked k (step_mutex_old calls s.sys u l k hu ha hk)).2
    · have := ((step_mutex calls s.sys u l hu).1 ha).2
      simp only [] at hk
      rw [this, hi] at hk
      rw [← Option.some.inj hk]
      exact hn
  · intro j hj
    simp only [] at hj ⊢
    by_cases hji : j = i
    · subst hji
      exact (notq hj).elim
    · rw [hw j hji] at hj
      rw [frame j hji]
      exact hI.queued j hj
  · intro j hj
    simp only [] at hj ⊢
    by_cases hji : j = i
    · subst hji
      have hout := hI.asleep j hj
      rcases hr with hr | hr
      · rw [ready_awake s j hr] at hj; cases hj
      · rcases step_timeout_src calls s.sys u l j hu hr hi with h1 | h1 <;>
          rw [h1] at hout <;> cases hout
    · rw [frame j hji]
      exact hI.asleep j hj
  · intro k j hk hj
    simp only [] at hk hj ⊢
    cases ha : l.acquires
    · rw [hb0 ha]
      have hk0 := step_mutex_old calls s.sys u l k hu ha hk
      by_cases hji : j = i
      · subst hji
        exact (notq hj).elim
      · rw [hw j hji] at hj
        exact hI.boost k j hk0 hj
    · obtain ⟨hb1, hb2⟩ := hb ha
      rw [hb1]
      by_cases hji : j = i
      · subst hji
        exact (notq hj).elim
      · rw [hw j hji] at hj
        exact hb2 j (hI.queued j hj).2 hj

theorem sinv_interrupt (n : Nat) (prio : Nat → Int) (calls : Nat → Call) (s : Sched) (u : Sys)
    (l : Label) (hI : SInv n prio s) (hu : step calls s.sys l = some u)
    (hl : l.task = none) : SInv n prio { s with sys := u } := by
  have hpc : ∀ j, u.pc j = s.sys.pc j := by
    intro j
    apply step_frame calls s.sys u l hu j
    rw [hl]
    intro heq
    cases heq
  have hm : u.uart_resource_mutex = s.sys.uart_resource_mutex := by
    apply (step_mutex calls s.sys u l hu).2.2 <;> cases l <;> first | rfl | cases hl
  refine ⟨a_step_inv calls s.sys u l hI.inv hu, ?_, ?_, ?_, ?_⟩
  · intro k hk
    simp only [] at hk ⊢
    rw [hm] at hk
    rw [hpc k]
    exact hI.locked k hk
  · intro j hj
    simp only [] at hj ⊢
    rw [hpc j]
    exact hI.queued j hj
  · intro j hj
    simp only [] at hj ⊢
    rw [hpc j]
    exact hI.asleep j hj
  · intro k j hk hj
    simp only [] at hk hj ⊢
    rw [hm] at hk
    exact hI.boost k j hk hj

theorem sstep_inv (n : Nat) (prio : Nat → Int) (calls : Nat → Call) (s t : Sched)
    (l : SLabel) (hI : SInv n prio s) (h : sstep n prio calls s l = some t) :
    SInv n prio t := by
  cases l with
  | act l =>
    simp only [sstep] at h
    cases hl : l.task with
    | none =>
      rw [hl] at h
      simp only [Option.map_eq_some'] at h
      obtain ⟨u, hu, rfl⟩ := h
      exact sinv_interrupt n prio calls s u l hI hu hl
    | some i =>
      rw [hl] at h
      simp only [] at h
      split at h
      · rename_i hg
        obtain ⟨hn, hr, _⟩ := hg
        split at h
        · rename_i ha
          split at h
          · rename_i hgr
            simp only [Option.map_eq_some'] at h
            obtain ⟨u, hu, rfl⟩ := h
            refine sinv_act n prio calls s u l i hI hu hl hn hr _ _ ?_ ?_ ?_ ?_
            · intro j hj
              exact Function.update_noteq hj _ _
            · intro hw
              rw [Function.update_same] at hw
              cases hw
            · intro _
              exact ⟨rfl, fun j hj hw => grantable_le n prio s i j hgr hj hw⟩
            · intro hf
              rw [ha] at hf
              cases hf
          · cases h
        · rename_i ha
          have ha0 : l.acquires = false := by simpa using ha
          split at h
          · rename_i hto
            split at h
            · simp only [Option.map_eq_some'] at h
              obtain ⟨u, hu, rfl⟩ := h
              refine sinv_act n prio calls s u l i hI hu hl hn hr _ _ ?_ ?_ ?_ ?_
              · intro j hj
                exact Function.update_noteq hj _ _
              · intro hw
                rw [Function.update_same] at hw
                cases hw
              · intro hf
                rw [ha0] at hf
                cases hf
              · intro _
                rfl
            · cases h
          · rename_i hto
            simp only [Option.map_eq_some'] at h
            obtain ⟨u, hu, rfl⟩ := h
            refine sinv_act n prio calls s u l i hI hu hl hn hr _ _ ?_ ?_ ?_ ?_
            · intro j _
              rfl
            · intro hw
              exact ⟨hw, ha0, hto⟩
            · intro hf
              rw [ha0] at hf
              cases hf
            · intro _
              rfl
      · cases h
  | block i =>
    simp only [sstep] at h
    split at h
    · rename_i hg
      obtain ⟨hn, hpc, _, hheld, _, _⟩ := hg
      simp only [Option.some.injEq] at h
      subst h
      refine ⟨hI.inv, hI.locked, ?_, hI.asleep, ?_⟩
      · intro j hj
        simp only [] at hj ⊢
        by_cases hji : j = i
        · subst hji
          exact ⟨hpc, hn⟩
        · rw [Function.update_noteq hji] at hj
          exact hI.queued j hj
      · intro k j hk hj
        simp only [] at hk hj ⊢
        by_cases hji : j = i
        · subst hji
          exact le_max_right _ _
        · rw [Function.update_noteq hji] at hj
          exact le_trans (hI.boost k j hk hj) (le_max_left _ _)
    · cases h
  | cpu i =>
    simp only [sstep] at h
    split at h
    · simp only [Option.some.injEq] at h
      subst h
      exact hI
    · cases h
  | sleep i =>
    simp only [sstep] at h
    split at h
    · rename_i hg
      simp only [Option.some.injEq] at h
      subst h
      refine ⟨hI.inv, hI.locked, hI.queued, ?_, hI.boost⟩
      intro j hj
      simp only [] at hj ⊢
      by_cases hji : j = i
      · subst hji
        exact hg.2.1
      · rw [Function.update_noteq hji] at hj
        exact hI.asleep j hj
    · cases h
  | wake i =>
    simp only [sstep] at h
    split at h
    · simp only [Option.some.injEq] at h
      subst h
      refine ⟨hI.inv, hI.locked, hI.queued, ?_, hI.boost⟩
      intro j hj
      simp only [] at hj ⊢
      by_cases hji : j = i
      · subst hji
        rw [Function.update_same] at hj
        cases hj
      · rw [Function.update_noteq hji] at hj
        exact hI.asleep j hj
    · cases h

theorem srun_inv (n : Nat) (prio : Nat → Int) (calls : Nat → Call) :
    ∀ (ls : List SLabel) (s t : Sched), SInv n prio s → srun n prio calls s ls = some t →
      SInv n prio t := by
  intro ls
  induction ls with
  | nil =>
    intro s t hP h
    simp only [srun, Option.some.injEq] at h
    exact h ▸ hP
  | cons l ls ih =>
    intro s t hP h
    simp only [srun] at h
    cases hs : sstep n prio calls s l with
    | none => rw [hs] at h; cases h
    | some u =>
      rw [hs] at h
      exact ih u t (sstep_inv n prio calls s u l hP hs) h

theorem sinit_inv (n : Nat) (prio : Nat → Int) : SInv n prio Sched.init := by
  refine ⟨a_init_inv, ?_, ?_, ?_, ?_⟩ <;> simp [Sched.init, Sys.init, Pc.outside]

theorem holder_ready (n : Nat) (prio : Nat → Int) (s : Sched) (hI : SInv n prio s) (L : Nat)
    (hL : s.sys.uart_resource_mutex = some L) : ready s L = true := by
  have hh := (hI.locked L hL).1
  have h1 : s.sleeping L = false := by
    cases hs : s.sleeping L
    · rfl
    · have := hI.asleep L hs
      revert hh this
      cases s.sys.pc L <;> simp [Pc.holds, Pc.outside]
  have h2 : s.waiting L = false := by
    cases hw : s.waiting L
    · rfl
    · rcases (hI.queued L hw).1 with h | h <;> rw [h] at hh <;> cases hh
  have h3 : s.sys.pc L ≠ .wait := by
    intro h
    rw [h] at hh
    cases hh
  simp [ready, h1, h2, h3]

/-- C11. In every state the scheduled mode A system reaches, with `n` tasks of any baseline
priorities: when a low-priority task `L` holds `uart_resource_mutex`, a high-priority task
`H` is blocked in `k_mutex_lock` on it, and `M` has a priority between the two, then the
effective priority of `L` is at least the priority of `H`, `L` is ready (nothing between
lines 116 and 143, or 153 and 155, suspends the holder), and no action of `M` is enabled:
`M` cannot run. -/
theorem priority_inheritance (n : Nat) (prio : Nat → Int) (calls : Nat → Call)
    (ls : List SLabel) (s : Sched) (hrun : srun n prio calls Sched.init ls = some s)
    (L H M : Nat) (hL : s.sys.uart_resource_mutex = some L) (hH : s.waiting H = true)
    (hLM : prio L < prio M) (hMH : prio M < prio H) :
    prio H ≤ eff prio s L ∧ ready s L = true ∧
    ∀ l : SLabel, l.task = some M → sstep n prio calls s l = none := by
  have hI : SInv n prio s := srun_inv n prio calls ls Sched.init s (sinit_inv n prio) hrun
  have hLn := (hI.locked L hL).2
  have hready := holder_ready n prio s hI L hL
  have heffL : eff prio s L = s.boosted := by simp [eff, hL]
  have hboost : prio H ≤ eff prio s L := by
    rw [heffL]
    exact hI.boost L H hL hH
  have hML : M ≠ L := by
    intro h
    rw [h] at hLM
    exact lt_irrefl _ hLM
  have heffM : eff prio s M = prio M := by
    unfold eff
    rw [hL, if_neg]
    intro h
    exact hML (Option.some.inj h).symm
  have notop : top n prio s M = true → False := by
    intro ht
    have := top_le n prio s M L ht hLn hready
    rw [heffM] at this
    omega
  refine ⟨hboost, hready, ?_⟩
  intro l hl
  cases l with
  | act a =>
    simp only [SLabel.task] at hl
    simp only [sstep, hl]
    rw [if_neg]
    intro hg
    exact notop hg.2.2
  | block i =>
    simp only [SLabel.task, Option.some.injEq] at hl
    subst hl
    simp only [sstep]
    rw [if_neg]
    intro hg
    exact notop hg.2.2.2.2.2
  | cpu i =>
    simp only [SLabel.task, Option.some.injEq] at hl
    subst hl
    simp only [sstep]
    rw [if_neg]
    intro hg
    exact notop hg.2.2.2
  | sleep i =>
    simp only [SLabel.task, Option.some.injEq] at hl
    subst hl
    simp only [sstep]
    rw [if_neg]
    intro hg
    exact notop hg.2.2.2
  | wake i =>
    simp only [SLabel.task] at hl
    cases hl

/-- Witness of C11: with the three threads of lines 239-246, the low task holds the lock,
the high task is blocked on it and the medium task is ready. -/
theorem priority_inheritance_witness :
    ∃ s, srun 3 thread_prio guard_calls Sched.init inversion_labels = some s ∧
      s.sys.uart_resource_mutex = some 2 ∧ s.waiting 0 = true ∧ ready s 1 = true ∧
      (thread_prio 0 ≤ eff thread_prio s 2 ∧ ready s 2 = true ∧
        ∀ l : SLabel, l.task = some 1 → sstep 3 thread_prio guard_calls s l = none) :=
  have h : (srun 3 thread_prio guard_calls Sched.init inversion_labels).isSome = true := by
    decide
  ⟨(srun 3 thread_prio guard_calls Sched.init inversion_labels).get h,
    (Option.some_get h).symm, rfl, rfl, rfl,
    priority_inheritance 3 thread_prio guard_calls inversion_labels _
      (Option.some_get h).symm 2 0 1 rfl rfl (by decide) (by decide)⟩

end ModeA

end Uart
